import Mathlib

/-!
# netutils: connection-oriented UDP multiplexer and address resolver

A shallow embedding of `udp.go`, `udpConn.go`, `utils.go`, `err.go` and `addr.go`.

Modelling conventions

* `*UDPConn` pointers are indices into `UDP.heap`, the list of every `UDPConn` object
  that `newConnection` has allocated on the listener, in allocation order.
* `time.Time` is a `Nat`; `0` is the zero time (`IsZero`).  Every operation that reads the
  clock takes the current instant `now` as an argument.
* A channel is the list of the values it buffers; `closedChan` (only ever closed, never
  sent on) is the boolean "has been closed".
* A Go `select` with several ready cases takes one of them by a uniform pseudo-random
  choice.  The choice is the argument `pick`, supplied by the runtime: the case taken is
  entry `pick % k` of the `k` ready cases, listed in source order.  A `select` with no
  ready case and no `default` parks the caller: the operation yields `none` and leaves
  the state as it is.
* A method body runs as one atomic step, except where it gives the reader task room: the
  goroutine `handle` runs for the whole life of the listener, and `Accept` leaves the mutex
  unheld between `readFrom` and `newConnection` and again between `newConnection` and the
  send that preloads the connection.  The delivery turns that fall into these two windows
  are arguments of `Accept`.  Calls of other client goroutines overlapping a method are not
  modelled.
-/

namespace Netutils

/-! ## err.go -/

/-- The error values of the package: the three of `err.go`, `*net.AddrError`, and an
error passed through unchanged from the host environment. -/
inductive GoError where
  | ErrClosed
  | ErrTimeout
  | ErrConnected
  | AddrError (Err : String) (Addr : String)
  | hostError (msg : String)
deriving DecidableEq, Repr

open GoError

/-- The `Error()` method: `net.ErrClosed`, the two `errors.New` texts of `err.go`, and
`(*net.AddrError).Error`, which prefixes `"address " + Addr + ": "` when `Addr` is not
empty. -/
def GoError.Error : GoError → String
  | ErrClosed => "use of closed network connection"
  | ErrTimeout => "timeout"
  | ErrConnected => "already had a connection"
  | AddrError e a => if a ≠ "" then "address " ++ a ++ ": " ++ e else e
  | hostError m => m

/-! ## Data model (udp.go, udpConn.go) -/

/-- A `net.Addr` interface value: what `Network()` and `String()` return. -/
structure NetAddr where
  network : String
  str : String
deriving DecidableEq, Repr

/-- The method `String()` of a `net.Addr`. -/
def NetAddr.String (a : NetAddr) : String := a.str

/-- The struct `udpBuf` with its fields `addr net.Addr` and `buf []byte`. -/
structure udpBuf where
  addr : NetAddr
  buf : List UInt8
deriving DecidableEq, Repr

/-- The struct `UDPConn`.  The back-reference `udp` is implicit: a `UDPConn` lives in the
`heap` of its listener.  `localAddr` is the field `local`. -/
structure UDPConn where
  closedChan : Bool
  readBuf : List (List UInt8)
  readDeadline : Nat
  writeDeadline : Nat
  localAddr : NetAddr
  remote : NetAddr
deriving DecidableEq, Repr

/-- The physical `net.PacketConn` of the host environment, as far as the package uses it:
whether `Close` was called on it, its bound address, and the log of the datagrams handed to
its `WriteTo`. -/
structure PacketConn where
  closed : Bool
  localAddr : NetAddr
  sent : List (List UInt8 × NetAddr)
deriving DecidableEq, Repr

/-- The struct `UDP`, together with the `UDPConn` objects it has allocated (`heap`).
`connectedConns` is the Go map as an association list from `addr.String()` to the index of
the connection. -/
structure UDP where
  conn : PacketConn
  closedChan : Bool
  readBuf : List udpBuf
  readDeadline : Nat
  writeDeadline : Nat
  connectedConns : List (String × Nat)
  heap : List UDPConn
deriving DecidableEq, Repr

def packetSize : Nat := 65535

def bufferLen : Nat := 9000

/-! ### Go map operations on the association list -/

/-- Lookup `v, found := m[k]`. -/
def mapGet : List (String × Nat) → String → Option Nat
  | [], _ => none
  | (k', v) :: m, k => if k' = k then some v else mapGet m k

/-- Removal `delete(m, k)`. -/
def mapDelete : List (String × Nat) → String → List (String × Nat)
  | [], _ => []
  | (k', v) :: m, k => if k' = k then mapDelete m k else (k', v) :: mapDelete m k

/-- Assignment `m[k] = v`: the binding for `k` is replaced when there is one. -/
def mapSet (m : List (String × Nat)) (k : String) (v : Nat) : List (String × Nat) :=
  (k, v) :: mapDelete m k

/-! ### Heap access -/

/-- What an index that is no allocated connection stands for: an object on which every
operation reports `ErrClosed`.  Indices handed out by `newConnection` are always allocated;
the theorems below only speak about those. -/
def noConn : UDPConn :=
  { closedChan := true, readBuf := [], readDeadline := 0, writeDeadline := 0,
    localAddr := ⟨"", ""⟩, remote := ⟨"", ""⟩ }

/-- Dereference the connection pointer `c`. -/
def UDP.deref (u : UDP) (c : Nat) : UDPConn := u.heap.getD c noConn

/-- Store `v` through the connection pointer `c`. -/
def UDP.store (u : UDP) (c : Nat) (v : UDPConn) : UDP := { u with heap := u.heap.set c v }

/-! ## utils.go -/

/-- Function `timeIsPast(t)`: `false` for the zero time, else `time.Now().After(t)`. -/
def timeIsPast (now t : Nat) : Bool :=
  if t = 0 then false else decide (t < now)

/-- Function `timeAfter(t)`, as the readiness of the channel it returns at the instant `now`: the nil
channel of the zero time is never ready; `time.After(time.Until(t))` delivers once the
duration `t - now` has run out, at once when it is zero or negative. -/
def timeAfter (now t : Nat) : Bool :=
  if t = 0 then false else decide (t ≤ now)

/-- Function `chanClose(c)`: `false` when `c` is already closed, else closes it and returns `true`.
Returns the result and the new state of the channel. -/
def chanClose (c : Bool) : Bool × Bool :=
  if c then (false, true) else (true, true)

/-! ## select -/

/-- The three communication cases of the `select` in `UDP.readFrom` and in `UDPConn.Read`,
in source order. -/
inductive ReadCase where
  | closed
  | data
  | timer
deriving DecidableEq, Repr

/-- The cases that can proceed, in source order. -/
def readyCases (closedChan : Bool) (hasData : Bool) (timerFired : Bool) : List ReadCase :=
  (if closedChan then [ReadCase.closed] else []) ++
  (if hasData then [ReadCase.data] else []) ++
  (if timerFired then [ReadCase.timer] else [])

/-- The case a `select` takes: none when no case can proceed (the caller parks), else the
one the runtime picks among those that can. -/
def selectCase (ready : List ReadCase) (pick : Nat) : Option ReadCase :=
  ready.get? (pick % ready.length)

/-! ## udp.go -/

/-- Constructor `NewUDP`, on the success of `net.ListenPacket`, which yields an open socket bound to
`localAddr`. -/
def NewUDP (localAddr : NetAddr) : UDP :=
  { conn := { closed := false, localAddr := localAddr, sent := [] },
    closedChan := false, readBuf := [], readDeadline := 0, writeDeadline := 0,
    connectedConns := [], heap := [] }

def UDP.IsClosed (u : UDP) : Bool := u.closedChan

def UDP.LocalAddr (u : UDP) : NetAddr := u.conn.localAddr

/-- Method `(*UDP).newConnection`: the returned pointer is the index of the freshly allocated
object. -/
def UDP.newConnection (u : UDP) (addr : NetAddr) : Except GoError Nat × UDP :=
  if u.IsClosed then (.error ErrClosed, u)
  else if (mapGet u.connectedConns addr.String).isSome then (.error ErrConnected, u)
  else
    let conn : UDPConn :=
      { closedChan := false, readBuf := [], readDeadline := 0, writeDeadline := 0,
        localAddr := u.LocalAddr, remote := addr }
    let c := u.heap.length
    (.ok c, { u with heap := u.heap ++ [conn],
                     connectedConns := mapSet u.connectedConns addr.String c })

/-- Method `(*UDP).handleClosedConnection`. -/
def UDP.handleClosedConnection (u : UDP) (c : Nat) : UDP :=
  { u with connectedConns := mapDelete u.connectedConns (u.deref c).remote.String }

/-- Method `(*UDP).DialUDP`. -/
def UDP.DialUDP (u : UDP) (addr : NetAddr) : Except GoError Nat × UDP :=
  u.newConnection addr

/-- Method `(*UDP).readFrom`: `none` when the `select` parks. -/
def UDP.readFrom (u : UDP) (now pick : Nat) : Option (Except GoError udpBuf) × UDP :=
  match selectCase (readyCases u.closedChan (!u.readBuf.isEmpty) (timeAfter now u.readDeadline))
      pick with
  | none => (none, u)
  | some ReadCase.closed => (some (.error ErrClosed), u)
  | some ReadCase.timer => (some (.error ErrTimeout), u)
  | some ReadCase.data =>
    match u.readBuf with
    | [] => (none, u)
    | b :: rest => (some (.ok b), { u with readBuf := rest })

/-- The builtin `copy(dst, src)`: the number of bytes copied and the new content of `dst`. -/
def copy (dst src : List UInt8) : Nat × List UInt8 :=
  let n := min dst.length src.length
  (n, src.take n ++ dst.drop n)

/-- Method `(*UDP).ReadFrom`: `(n, addr, err)` and the buffer `p` after the call. -/
def UDP.ReadFrom (u : UDP) (p : List UInt8) (now pick : Nat) :
    Option (Nat × Option NetAddr × Option GoError × List UInt8) × UDP :=
  match u.readFrom now pick with
  | (none, u1) => (none, u1)
  | (some (.error e), u1) => (some (0, none, some e, p), u1)
  | (some (.ok b), u1) => (some ((copy p b.buf).1, some b.addr, none, (copy p b.buf).2), u1)

/-- Method `(*UDP).WriteTo`.  The last statement of the source is `return u.WriteTo(p, addr)`, a
call of the method itself; `fuel` bounds the depth of that recursion and `none` is "still
recursing after `fuel` calls".  `clock k` is what the `k`-th evaluation of `time.Now()`
returns.  The state is returned to show what the call did to the physical socket. -/
def UDP.WriteTo : Nat → UDP → (Nat → Nat) → List UInt8 → NetAddr →
    Option ((Nat × Option GoError) × UDP)
  | 0, _, _, _, _ => none
  | fuel + 1, u, clock, p, addr =>
    if u.closedChan then some ((0, some ErrClosed), u)
    else if u.writeDeadline ≠ 0 ∧ u.writeDeadline < clock 0 then some ((0, some ErrTimeout), u)
    else UDP.WriteTo fuel u (fun k => clock (k + 1)) p addr

/-- The method `WriteTo` of the physical socket: the datagram is handed to the host
environment, whose answer `res` is returned. -/
def PacketConn.WriteTo (s : PacketConn) (p : List UInt8) (addr : NetAddr)
    (res : Nat × Option GoError) : (Nat × Option GoError) × PacketConn :=
  (res, { s with sent := s.sent ++ [(p, addr)] })

/-- The method `Close` of the physical socket. -/
def PacketConn.Close (s : PacketConn) : PacketConn := { s with closed := true }

/-! ## udpConn.go -/

/-- Method `(*UDPConn).Read`: `(n, err)` and the buffer `b` after the call; `none` when the
`select` parks. -/
def UDPConn.Read (u : UDP) (c : Nat) (b : List UInt8) (now pick : Nat) :
    Option (Nat × Option GoError × List UInt8) × UDP :=
  let cn := u.deref c
  match selectCase (readyCases cn.closedChan (!cn.readBuf.isEmpty) (timeAfter now cn.readDeadline))
      pick with
  | none => (none, u)
  | some ReadCase.closed => (some (0, some ErrClosed, b), u)
  | some ReadCase.timer => (some (0, some ErrTimeout, b), u)
  | some ReadCase.data =>
    match cn.readBuf with
    | [] => (none, u)
    | buf :: rest =>
      (some ((copy b buf).1, none, (copy b buf).2), u.store c { cn with readBuf := rest })

/-- Method `(*UDPConn).Write`; `res` is the answer of the physical socket in case it is reached. -/
def UDPConn.Write (u : UDP) (c : Nat) (b : List UInt8) (now : Nat) (res : Nat × Option GoError) :
    (Nat × Option GoError) × UDP :=
  let cn := u.deref c
  if cn.closedChan then ((0, some ErrClosed), u)
  else if timeIsPast now cn.writeDeadline then ((0, some ErrTimeout), u)
  else
    let r := u.conn.WriteTo b cn.remote res
    (r.1, { u with conn := r.2 })

/-- Method `(*UDPConn).Close`: `nil` is `none`. -/
def UDPConn.Close (u : UDP) (c : Nat) : Option GoError × UDP :=
  let cn := u.deref c
  let r := chanClose cn.closedChan
  if !r.1 then (some ErrClosed, u)
  else (none, (u.store c { cn with closedChan := r.2 }).handleClosedConnection c)

def UDPConn.SetReadDeadline (u : UDP) (c : Nat) (t : Nat) : Option GoError × UDP :=
  let cn := u.deref c
  if cn.closedChan then (some ErrClosed, u)
  else (none, u.store c { cn with readDeadline := t })

def UDPConn.SetWriteDeadline (u : UDP) (c : Nat) (t : Nat) : Option GoError × UDP :=
  let cn := u.deref c
  if cn.closedChan then (some ErrClosed, u)
  else (none, u.store c { cn with writeDeadline := t })

def UDPConn.SetDeadline (u : UDP) (c : Nat) (t : Nat) : Option GoError × UDP :=
  let r1 := UDPConn.SetReadDeadline u c t
  let r2 := UDPConn.SetWriteDeadline r1.2 c t
  if r1.1 ≠ none then (r1.1, r2.2) else (r2.1, r2.2)

/-! ## udp.go, continued -/

/-- Method `(*UDP).Close`.  The snapshot `cs` holds the values of the map; Go ranges over a map in
an unspecified order, here the order of the association list. -/
def UDP.Close (u : UDP) : Option GoError × UDP :=
  let r := chanClose u.closedChan
  if !r.1 then (some ErrClosed, u)
  else
    let u1 : UDP := { u with closedChan := r.2, conn := u.conn.Close }
    let cs := u1.connectedConns.map Prod.snd
    (none, cs.foldl (fun s c => (UDPConn.Close s c).2) u1)

def UDP.SetReadDeadline (u : UDP) (t : Nat) : Option GoError × UDP :=
  if u.closedChan then (some ErrClosed, u) else (none, { u with readDeadline := t })

def UDP.SetWriteDeadline (u : UDP) (t : Nat) : Option GoError × UDP :=
  if u.closedChan then (some ErrClosed, u) else (none, { u with writeDeadline := t })

def UDP.SetDeadline (u : UDP) (t : Nat) : Option GoError × UDP :=
  let r1 := u.SetReadDeadline t
  let r2 := r1.2.SetWriteDeadline t
  if r1.1 ≠ none then (r1.1, r2.2) else (r2.1, r2.2)

/-- A non-blocking send `select { case ch <- v: default: }` on a channel of capacity
`bufferLen`: `v` is queued when there is room and dropped otherwise. -/
def trySend {α : Type} (ch : List α) (v : α) : List α :=
  if ch.length < bufferLen then ch ++ [v] else ch

/-- One turn of the loop of `(*UDP).handle` in which `u.conn.ReadFrom(buf)` returned without
error: `payload` is `buf[:n]` and `addr` the source address. -/
def UDP.handle (u : UDP) (payload : List UInt8) (addr : NetAddr) : UDP :=
  match mapGet u.connectedConns addr.String with
  | some c => u.store c { u.deref c with readBuf := trySend (u.deref c).readBuf payload }
  | none => { u with readBuf := trySend u.readBuf ⟨addr, payload⟩ }

/-- A blocking send `ch <- v` on a channel of capacity `bufferLen`: the new content of the
channel, or `none` when the channel is full and the sender parks. -/
def chanSend {α : Type} (ch : List α) (v : α) : Option (List α) :=
  if ch.length < bufferLen then some (ch ++ [v]) else none

/-- The delivery turns of the reader task for the datagrams `ds`, in the order of arrival. -/
def UDP.handleAll (u : UDP) (ds : List udpBuf) : UDP :=
  ds.foldl (fun s d => s.handle d.buf d.addr) u

/-- The payloads among the datagrams `ds` whose source address prints as `key`, in order. -/
def fromPeer (key : String) (ds : List udpBuf) : List (List UInt8) :=
  (ds.filter (fun d => d.addr.String = key)).map (fun d => d.buf)

/-- Method `(*UDP).Accept`.  The mutex is held only inside `newConnection`: `early` are the
datagrams the reader task delivers after `readFrom` has returned and before `newConnection`
takes the lock, `late` those it delivers after `newConnection` has released the lock, with
the connection already in the peer map, and before the send `conn.readBuf <- buf`.  That
send is a blocking one: when the queue of the connection is full the caller parks
(`none`), the connection being registered but not yet returned. -/
def UDP.Accept (u : UDP) (now pick : Nat) (early late : List udpBuf) :
    Option (Except GoError Nat) × UDP :=
  match u.readFrom now pick with
  | (none, u1) => (none, u1)
  | (some (.error e), u1) => (some (.error e), u1)
  | (some (.ok b), u1) =>
    match (u1.handleAll early).newConnection b.addr with
    | (.error e, u2) => (some (.error e), u2)
    | (.ok c, u2) =>
      match chanSend ((u2.handleAll late).deref c).readBuf b.buf with
      | none => (none, u2.handleAll late)
      | some q =>
        (some (.ok c),
          (u2.handleAll late).store c { (u2.handleAll late).deref c with readBuf := q })

/-- The send `conn.readBuf <- buf` of an `Accept` that was parked on it, going through once
the queue of connection `c` has room. -/
def UDP.acceptSend (u : UDP) (c : Nat) (buf : List UInt8) : UDP :=
  match chanSend (u.deref c).readBuf buf with
  | none => u
  | some q => u.store c { u.deref c with readBuf := q }

/-! ## The listener as a transition system -/

/-- The calls a client can make on a listener and on its connections, and the delivery
turns of the reader task, with the arguments and the choices of the runtime each takes. -/
inductive Op where
  | DialUDP (addr : NetAddr)
  | Accept (now pick : Nat) (early late : List udpBuf)
  | acceptSend (c : Nat) (buf : List UInt8)
  | ReadFrom (p : List UInt8) (now pick : Nat)
  | Close
  | SetReadDeadline (t : Nat)
  | SetWriteDeadline (t : Nat)
  | SetDeadline (t : Nat)
  | handle (payload : List UInt8) (addr : NetAddr)
  | connRead (c : Nat) (b : List UInt8) (now pick : Nat)
  | connWrite (c : Nat) (b : List UInt8) (now : Nat) (res : Nat × Option GoError)
  | connClose (c : Nat)
  | connSetReadDeadline (c : Nat) (t : Nat)
  | connSetWriteDeadline (c : Nat) (t : Nat)
  | connSetDeadline (c : Nat) (t : Nat)
deriving DecidableEq, Repr

/-- The state after one call. -/
def step (u : UDP) : Op → UDP
  | .DialUDP addr => (u.DialUDP addr).2
  | .Accept now pick early late => (u.Accept now pick early late).2
  | .acceptSend c buf => u.acceptSend c buf
  | .ReadFrom p now pick => (u.ReadFrom p now pick).2
  | .Close => u.Close.2
  | .SetReadDeadline t => (u.SetReadDeadline t).2
  | .SetWriteDeadline t => (u.SetWriteDeadline t).2
  | .SetDeadline t => (u.SetDeadline t).2
  | .handle payload addr => u.handle payload addr
  | .connRead c b now pick => (UDPConn.Read u c b now pick).2
  | .connWrite c b now res => (UDPConn.Write u c b now res).2
  | .connClose c => (UDPConn.Close u c).2
  | .connSetReadDeadline c t => (UDPConn.SetReadDeadline u c t).2
  | .connSetWriteDeadline c t => (UDPConn.SetWriteDeadline u c t).2
  | .connSetDeadline c t => (UDPConn.SetDeadline u c t).2

/-- The state after a sequence of calls. -/
def run (u : UDP) (ops : List Op) : UDP := ops.foldl step u

/-! ## addr.go -/

def missingPort : String := "missing port in address"

def missingPortOrNoSRV : String := "missing port in address or no such SRV"

def unknownPort : String := "unknown port"

/-- A `net.IP`, a byte slice. -/
abbrev IP := List UInt8

/-- The struct `Addr`; the field `Typ` is the field `Type` of the source. -/
structure Addr where
  Typ : String
  IP : IP
  Port : Int
deriving DecidableEq, Repr

/-- A `net.SRV` record; its fields are `uint16` in Go. -/
structure SRV where
  Target : String
  Port : Fin 65536
  Priority : Fin 65536
  Weight : Fin 65536
deriving DecidableEq, Repr

/-- The functions of package `net` that `addr.go` calls, taken as given.  A Go result
`(v, err)` is `.ok v` when `err` is nil and `.error err` otherwise; the nil `net.IP` of
`ParseIP` is `none`.  `LookupSRV` takes `(service, proto, name)` and returns the canonical
name and the records in the order the resolver puts them. -/
structure Env where
  SplitHostPort : String → Except GoError (String × String)
  ParseIP : String → Option IP
  LookupIP : String → Except GoError (List IP)
  LookupPort : String → String → Except GoError Int
  LookupSRV : String → String → String → Except GoError (String × List SRV)

/-- What a call yields: a value, an error, or a run-time panic. -/
inductive Outcome (α : Type) where
  | ok (a : α)
  | error (e : GoError)
  | panic
deriving DecidableEq, Repr

/-- Function `strings.Contains(s, substr)`. -/
def stringsContains (s substr : String) : Bool :=
  s.data.tails.any (fun t => substr.data.isPrefixOf t)

def ParseIP (env : Env) (s : String) : Option IP := env.ParseIP s

def IsVaildPort (port : Int) : Bool := decide (0 ≤ port ∧ port ≤ 65535)

def ParsePort (env : Env) (network : String) (s : String) : Int :=
  match env.LookupPort network s with
  | .error _ => -1
  | .ok port => if !IsVaildPort port then -1 else port

def resolveType (network : String) : String :=
  if network = "udp" ∨ network = "udp4" ∨ network = "udp6" then "udp"
  else if network = "tcp" ∨ network = "tcp4" ∨ network = "tcp6" then "tcp"
  else ""

/-- Function `ParseAddr`; the nil result is `none`. -/
def ParseAddr (env : Env) (network : String) (s : String) : Option Addr :=
  match env.SplitHostPort s with
  | .error _ => none
  | .ok (host, port) =>
    match env.ParseIP host with
    | none => none
    | some ip =>
      let portnum := ParsePort env network port
      if portnum = -1 then none
      else some { Typ := resolveType network, IP := ip, Port := portnum }

/-- Function `ResolveIP`; the index expression `ips[0]` panics on an empty slice. -/
def ResolveIP (env : Env) (address : String) : Outcome IP :=
  match ParseIP env address with
  | some ip => .ok ip
  | none =>
    match env.LookupIP address with
    | .error err => .error err
    | .ok [] => .panic
    | .ok (ip :: _) => .ok ip

/-- The loop `for _, r := range records` of `ResolveAddr`: `some` is what the `return`
inside the loop (or a panic) yields, `none` is the loop running to its end. -/
def srvLoop (env : Env) (network : String) : List SRV → Option (Outcome Addr)
  | [] => none
  | r :: rest =>
    match ResolveIP env r.Target with
    | .ok ip => some (.ok { Typ := resolveType network, IP := ip, Port := (r.Port.val : Int) })
    | .error _ => srvLoop env network rest
    | .panic => some .panic

/-- Function `ResolveAddr`. -/
def ResolveAddr (env : Env) (network address service : String) (defaultPort : Int) :
    Outcome Addr :=
  match env.SplitHostPort address with
  | .error err =>
    if !stringsContains err.Error missingPort then .error err
    else
      let inLoop : Option (Outcome Addr) :=
        match env.LookupSRV service network address with
        | .ok (_, records) => srvLoop env network records
        | .error _ => none
      match inLoop with
      | some r => r
      | none =>
        if IsVaildPort defaultPort then
          match ResolveIP env address with
          | .ok ip => .ok { Typ := resolveType network, IP := ip, Port := defaultPort }
          | .error err => .error err
          | .panic => .panic
        else .error (AddrError missingPortOrNoSRV address)
  | .ok (host, port) =>
    match ResolveIP env host with
    | .error err => .error err
    | .panic => .panic
    | .ok ip =>
      let portnum := ParsePort env network port
      if portnum = -1 then .error (AddrError unknownPort address)
      else .ok { Typ := resolveType network, IP := ip, Port := portnum }

/-- The precedence rule for an address without a port, in the words of the specification:
the first SRV record, in record order, whose target resolves to an IP, with that record's
port; else the address itself resolved and paired with a valid default port; else the
error "missing port in address or no such SRV". -/
def resolveNoPortRule (env : Env) (network address service : String) (defaultPort : Int) :
    Outcome Addr :=
  let firstUsable : Option (SRV × IP) :=
    match env.LookupSRV service network address with
    | .error _ => none
    | .ok (_, records) =>
      records.findSome? (fun r =>
        match ResolveIP env r.Target with
        | .ok ip => some (r, ip)
        | _ => none)
  match firstUsable with
  | some (r, ip) => .ok { Typ := resolveType network, IP := ip, Port := (r.Port.val : Int) }
  | none =>
    if 0 ≤ defaultPort ∧ defaultPort ≤ 65535 then
      match ResolveIP env address with
      | .ok ip => .ok { Typ := resolveType network, IP := ip, Port := defaultPort }
      | .error err => .error err
      | .panic => .panic
    else .error (AddrError "missing port in address or no such SRV" address)

/-- A host environment for the examples: `example.com` has no port and resolves to
`93.184.216.34`; its `xmpp` service over `udp` has two SRV records, the first with a target
that does not resolve, the second with the target `srv2.example.com` at `10.0.0.2`, port
`5223`; `10.0.0.1:53` splits into a literal IP and the numeric port `53`. -/
def exampleEnv : Env where
  SplitHostPort := fun s =>
    if s = "10.0.0.1:53" then .ok ("10.0.0.1", "53") else .error (AddrError missingPort s)
  ParseIP := fun s => if s = "10.0.0.1" then some [10, 0, 0, 1] else none
  LookupIP := fun s =>
    if s = "example.com" then .ok [[93, 184, 216, 34]]
    else if s = "srv2.example.com" then .ok [[10, 0, 0, 2]]
    else .error (hostError "no such host")
  LookupPort := fun _ s => if s = "53" then .ok 53 else .error (hostError "unknown port")
  LookupSRV := fun service proto name =>
    if service = "xmpp" ∧ proto = "udp" ∧ name = "example.com" then
      .ok ("example.com.", [⟨"srv1.example.com", 5222, 10, 0⟩, ⟨"srv2.example.com", 5223, 20, 0⟩])
    else .error (hostError "no such host")

/-! ## Invariants of the listener -/

/-- The peer map and the open connections determine each other: an entry `k ↦ c` points to
an open connection whose remote address prints as `k`, and every open connection is
registered under its remote address. -/
structure Inv (u : UDP) : Prop where
  reg : ∀ k c, mapGet u.connectedConns k = some c →
    (u.deref c).closedChan = false ∧ (u.deref c).remote.String = k
  open_reg : ∀ c, (u.deref c).closedChan = false →
    mapGet u.connectedConns (u.deref c).remote.String = some c

/-- How a call may change a listener: connections are only added, a closed connection
stays closed, and the registration invariant is kept. -/
structure Evolves (u u' : UDP) : Prop where
  len : u.heap.length ≤ u'.heap.length
  closed : ∀ c, c < u.heap.length → (u.deref c).closedChan = true →
    (u'.deref c).closedChan = true
  inv : Inv u → Inv u'

/-- A change that touches neither the peer map, nor the number of connections, nor the
closed flag or the remote address of a connection. -/
structure Quiet (u u' : UDP) : Prop where
  lflag : u'.closedChan = u.closedChan
  conns : u'.connectedConns = u.connectedConns
  len : u'.heap.length = u.heap.length
  flag : ∀ c, (u'.deref c).closedChan = (u.deref c).closedChan
  remote : ∀ c, (u'.deref c).remote = (u.deref c).remote

/-- The state in which a successful `newConnection` leaves the listener. -/
def registered (u : UDP) (addr : NetAddr) : UDP :=
  { u with
    heap := u.heap ++ [{ closedChan := false, readBuf := [], readDeadline := 0,
                         writeDeadline := 0, localAddr := u.LocalAddr, remote := addr }],
    connectedConns := mapSet u.connectedConns addr.String u.heap.length }

/-- Once the listener is closed, all its connections are closed. -/
def Shut (u : UDP) : Prop := u.closedChan = true → ∀ c, (u.deref c).closedChan = true

/-- A call that does not close the listener, and allocates nothing on a closed one. -/
structure Stable (u u' : UDP) : Prop where
  lflag : u'.closedChan = u.closedChan
  len : u.closedChan = true → u'.heap.length = u.heap.length

/-! ## Lemmas on the map and the heap -/

theorem mapGet_mapDelete (m : List (String × Nat)) (k k' : String) :
    mapGet (mapDelete m k) k' = if k' = k then none else mapGet m k' := by
  induction m with
  | nil => simp [mapGet, mapDelete]
  | cons e m ih =>
    obtain ⟨a, b⟩ := e
    by_cases h : a = k <;> by_cases h2 : k' = k <;> by_cases h3 : a = k' <;>
      simp_all [mapGet, mapDelete]

theorem mapGet_mapSet (m : List (String × Nat)) (k k' : String) (v : Nat) :
    mapGet (mapSet m k v) k' = if k' = k then some v else mapGet m k' := by
  by_cases h : k = k'
  · simp [mapSet, mapGet, h]
  · have h' : ¬ k' = k := fun e => h e.symm
    simp [mapSet, mapGet, h, h', mapGet_mapDelete]

theorem mapGet_mem_values (m : List (String × Nat)) (k : String) (c : Nat)
    (h : mapGet m k = some c) : c ∈ m.map Prod.snd := by
  induction m with
  | nil => simp [mapGet] at h
  | cons e m ih =>
    obtain ⟨a, b⟩ := e
    by_cases h1 : a = k
    · simp [mapGet, h1] at h; simp [h]
    · simp [mapGet, h1] at h; simp [ih h]

theorem deref_store (u : UDP) (c c' : Nat) (v : UDPConn) :
    (u.store c v).deref c' = if c = c' ∧ c < u.heap.length then v else u.deref c' := by
  simp only [UDP.deref, UDP.store, List.getD_eq_getElem?_getD, List.getElem?_set]
  by_cases h : c = c'
  · subst h
    by_cases h2 : c < u.heap.length
    · simp [h2]
    · simp [h2, List.getElem?_eq_none (Nat.le_of_not_lt h2)]
  · simp [h]

theorem deref_of_le (u : UDP) (c : Nat) (h : u.heap.length ≤ c) : u.deref c = noConn := by
  simp [UDP.deref, List.getD_eq_getElem?_getD, List.getElem?_eq_none h]

theorem lt_of_open (u : UDP) (c : Nat) (h : (u.deref c).closedChan = false) :
    c < u.heap.length := by
  by_contra hc
  rw [deref_of_le u c (Nat.le_of_not_lt hc)] at h
  simp [noConn] at h

theorem deref_append_lt (u : UDP) (c : Nat) (v : UDPConn) (xs : List (String × Nat))
    (h : c < u.heap.length) :
    ({ u with heap := u.heap ++ [v], connectedConns := xs } : UDP).deref c = u.deref c := by
  simp [UDP.deref, List.getD_eq_getElem?_getD, List.getElem?_append_left h]

theorem deref_append_new (u : UDP) (v : UDPConn) (xs : List (String × Nat)) :
    ({ u with heap := u.heap ++ [v], connectedConns := xs } : UDP).deref u.heap.length = v := by
  simp [UDP.deref, List.getD_eq_getElem?_getD]

theorem Evolves.here (u : UDP) : Evolves u u := ⟨le_refl _, fun _ _ h => h, id⟩

theorem Evolves.comp {u v w : UDP} (h1 : Evolves u v) (h2 : Evolves v w) : Evolves u w :=
  ⟨le_trans h1.len h2.len,
   fun c hc h => h2.closed c (lt_of_lt_of_le hc h1.len) (h1.closed c hc h),
   fun h => h2.inv (h1.inv h)⟩

theorem Quiet.idle (u : UDP) : Quiet u u := ⟨rfl, rfl, rfl, fun _ => rfl, fun _ => rfl⟩

theorem Quiet.seq {u v w : UDP} (h1 : Quiet u v) (h2 : Quiet v w) : Quiet u w :=
  ⟨h2.lflag.trans h1.lflag, h2.conns.trans h1.conns, h2.len.trans h1.len,
   fun c => (h2.flag c).trans (h1.flag c), fun c => (h2.remote c).trans (h1.remote c)⟩

theorem Evolves.of_same {u u' : UDP} (hconns : u'.connectedConns = u.connectedConns)
    (hlen : u'.heap.length = u.heap.length)
    (hflag : ∀ c, (u'.deref c).closedChan = (u.deref c).closedChan)
    (hremote : ∀ c, (u'.deref c).remote = (u.deref c).remote) : Evolves u u' := by
  refine ⟨le_of_eq hlen.symm, fun c _ hc => by rw [hflag c]; exact hc, fun hi => ?_⟩
  constructor
  · intro k c hk
    rw [hconns] at hk
    rw [hflag c, hremote c]
    exact hi.reg k c hk
  · intro c hc
    rw [hflag c] at hc
    rw [hconns, hremote c]
    exact hi.open_reg c hc

theorem Quiet.evolves {u u' : UDP} (h : Quiet u u') : Evolves u u' :=
  Evolves.of_same h.conns h.len h.flag h.remote

theorem Quiet.of_heap_eq {u u' : UDP} (h0 : u'.closedChan = u.closedChan)
    (h1 : u'.connectedConns = u.connectedConns) (h2 : u'.heap = u.heap) : Quiet u u' := by
  refine ⟨h0, h1, by rw [h2], fun c => ?_, fun c => ?_⟩ <;> simp [UDP.deref, h2]

theorem Quiet.store (u : UDP) (c : Nat) (v : UDPConn)
    (hf : v.closedChan = (u.deref c).closedChan) (hr : v.remote = (u.deref c).remote) :
    Quiet u (u.store c v) := by
  refine ⟨rfl, rfl, by simp [UDP.store], fun c' => ?_, fun c' => ?_⟩
  · rw [deref_store]
    split_ifs with h
    · rw [hf, h.1]
    · rfl
  · rw [deref_store]
    split_ifs with h
    · rw [hr, h.1]
    · rfl

/-! ## What each call does to the registration -/

theorem readFrom_quiet (u : UDP) (now pick : Nat) : Quiet u (u.readFrom now pick).2 := by
  unfold UDP.readFrom
  split
  · exact Quiet.idle u
  · exact Quiet.idle u
  · exact Quiet.idle u
  · split
    · exact Quiet.idle u
    · exact Quiet.of_heap_eq rfl rfl rfl

theorem ReadFrom_quiet (u : UDP) (p : List UInt8) (now pick : Nat) :
    Quiet u (u.ReadFrom p now pick).2 := by
  have h := readFrom_quiet u now pick
  unfold UDP.ReadFrom
  split <;> rename_i heq <;> rw [heq] at h <;> exact h

theorem handle_quiet (u : UDP) (payload : List UInt8) (addr : NetAddr) :
    Quiet u (u.handle payload addr) := by
  unfold UDP.handle
  split
  · exact Quiet.store u _ _ rfl rfl
  · exact Quiet.of_heap_eq rfl rfl rfl

theorem SetReadDeadline_quiet (u : UDP) (t : Nat) : Quiet u (u.SetReadDeadline t).2 := by
  unfold UDP.SetReadDeadline
  split
  · exact Quiet.idle u
  · exact Quiet.of_heap_eq rfl rfl rfl

theorem SetWriteDeadline_quiet (u : UDP) (t : Nat) : Quiet u (u.SetWriteDeadline t).2 := by
  unfold UDP.SetWriteDeadline
  split
  · exact Quiet.idle u
  · exact Quiet.of_heap_eq rfl rfl rfl

theorem SetDeadline_quiet (u : UDP) (t : Nat) : Quiet u (u.SetDeadline t).2 := by
  have h1 := SetReadDeadline_quiet u t
  have h2 := SetWriteDeadline_quiet (u.SetReadDeadline t).2 t
  unfold UDP.SetDeadline
  simp only []
  split <;> exact h1.seq h2

theorem connRead_quiet (u : UDP) (c : Nat) (b : List UInt8) (now pick : Nat) :
    Quiet u (UDPConn.Read u c b now pick).2 := by
  unfold UDPConn.Read
  simp only []
  split
  · exact Quiet.idle u
  · exact Quiet.idle u
  · exact Quiet.idle u
  · split
    · exact Quiet.idle u
    · exact Quiet.store u _ _ rfl rfl

theorem connWrite_quiet (u : UDP) (c : Nat) (b : List UInt8) (now : Nat)
    (res : Nat × Option GoError) : Quiet u (UDPConn.Write u c b now res).2 := by
  unfold UDPConn.Write
  simp only []
  split
  · exact Quiet.idle u
  · split
    · exact Quiet.idle u
    · exact Quiet.of_heap_eq rfl rfl rfl

theorem connSetReadDeadline_quiet (u : UDP) (c t : Nat) :
    Quiet u (UDPConn.SetReadDeadline u c t).2 := by
  unfold UDPConn.SetReadDeadline
  simp only []
  split
  · exact Quiet.idle u
  · exact Quiet.store u _ _ rfl rfl

theorem connSetWriteDeadline_quiet (u : UDP) (c t : Nat) :
    Quiet u (UDPConn.SetWriteDeadline u c t).2 := by
  unfold UDPConn.SetWriteDeadline
  simp only []
  split
  · exact Quiet.idle u
  · exact Quiet.store u _ _ rfl rfl

theorem connSetDeadline_quiet (u : UDP) (c t : Nat) :
    Quiet u (UDPConn.SetDeadline u c t).2 := by
  have h1 := connSetReadDeadline_quiet u c t
  have h2 := connSetWriteDeadline_quiet (UDPConn.SetReadDeadline u c t).2 c t
  unfold UDPConn.SetDeadline
  simp only []
  split <;> exact h1.seq h2

theorem newConnection_eq (u : UDP) (addr : NetAddr) :
    u.newConnection addr =
      if u.closedChan = true then (.error ErrClosed, u)
      else if (mapGet u.connectedConns addr.String).isSome = true then (.error ErrConnected, u)
      else (.ok u.heap.length, registered u addr) := by
  simp only [UDP.newConnection, UDP.IsClosed, registered]

theorem registered_evolves (u : UDP) (addr : NetAddr)
    (hfree : mapGet u.connectedConns addr.String = none) : Evolves u (registered u addr) := by
  refine ⟨by simp [registered], fun c hc h => ?_, fun hi => ?_⟩
  · rw [registered, deref_append_lt u c _ _ hc]; exact h
  · constructor
    · intro k c hk
      simp only [registered, mapGet_mapSet] at hk
      by_cases hkk : k = addr.String
      · rw [if_pos hkk] at hk
        have hc : c = u.heap.length := by simpa using hk.symm
        subst hc
        rw [registered, deref_append_new]
        exact ⟨rfl, hkk.symm⟩
      · rw [if_neg hkk] at hk
        have h := hi.reg k c hk
        have hlt := lt_of_open u c h.1
        rw [registered, deref_append_lt u c _ _ hlt]
        exact h
    · intro c hc
      by_cases hlt : c < u.heap.length
      · rw [registered, deref_append_lt u c _ _ hlt] at hc ⊢
        simp only [mapGet_mapSet]
        have h := hi.open_reg c hc
        have hne : (u.deref c).remote.String ≠ addr.String := by
          intro e; rw [e, hfree] at h; exact absurd h (by simp)
        rw [if_neg hne]; exact h
      · have hle : c ≤ u.heap.length := by
          have := lt_of_open _ c hc
          simp [registered] at this
          omega
        have hc' : c = u.heap.length := by omega
        subst hc'
        rw [registered, deref_append_new]
        simp [mapGet_mapSet]

theorem newConnection_evolves (u : UDP) (addr : NetAddr) :
    Evolves u (u.newConnection addr).2 := by
  rw [newConnection_eq]
  split
  · exact Evolves.here u
  · split
    · exact Evolves.here u
    · rename_i _ h
      refine registered_evolves u addr ?_
      cases hm : mapGet u.connectedConns addr.String with
      | none => rfl
      | some v => simp [hm] at h

theorem connClose_eq (u : UDP) (c : Nat) :
    UDPConn.Close u c =
      if (u.deref c).closedChan = true then (some ErrClosed, u)
      else (none, (u.store c { u.deref c with closedChan := true }).handleClosedConnection c) := by
  unfold UDPConn.Close chanClose
  cases h : (u.deref c).closedChan <;> simp [h]

theorem deref_handleClosedConnection (u : UDP) (c c' : Nat) :
    (u.handleClosedConnection c).deref c' = u.deref c' := rfl

theorem connClose_closes (u : UDP) (c : Nat) (hc : c < u.heap.length) :
    ((UDPConn.Close u c).2.deref c).closedChan = true := by
  rw [connClose_eq]
  split
  · assumption
  · rw [deref_handleClosedConnection, deref_store]
    simp [hc]

theorem connClose_evolves (u : UDP) (c : Nat) : Evolves u (UDPConn.Close u c).2 := by
  rw [connClose_eq]
  split
  · exact Evolves.here u
  · rename_i hopen
    have hopen' : (u.deref c).closedChan = false := by simpa using hopen
    have hlt := lt_of_open u c hopen'
    refine ⟨by simp [UDP.handleClosedConnection, UDP.store], fun c' _ h => ?_, fun hi => ?_⟩
    · rw [deref_handleClosedConnection, deref_store]
      split_ifs
      · rfl
      · exact h
    · have hkey : ((u.store c { u.deref c with closedChan := true }).deref c).remote
          = (u.deref c).remote := by
        rw [deref_store]; simp [hlt]
      constructor
      · intro k c' hk
        simp only [UDP.handleClosedConnection, hkey, mapGet_mapDelete] at hk
        have hk' : mapGet u.connectedConns k = some c' ∧ k ≠ (u.deref c).remote.String := by
          by_cases e : k = (u.deref c).remote.String
          · rw [if_pos e] at hk; exact absurd hk (by simp)
          · rw [if_neg e] at hk; exact ⟨hk, e⟩
        have h := hi.reg k c' hk'.1
        have hne : c ≠ c' := by
          intro e; subst e; exact hk'.2 h.2.symm
        rw [deref_handleClosedConnection, deref_store]
        simp only [hne, false_and, if_false]
        exact h
      · intro c' hc'
        rw [deref_handleClosedConnection, deref_store] at hc' ⊢
        by_cases e : c = c'
        · subst e
          simp [hlt] at hc'
        · simp only [e, false_and, if_false] at hc' ⊢
          simp only [UDP.handleClosedConnection, hkey, mapGet_mapDelete]
          have h := hi.open_reg c' hc'
          have hne : (u.deref c').remote.String ≠ (u.deref c).remote.String := by
            intro e2
            rw [e2, hi.open_reg c hopen'] at h
            exact e (by simpa using h)
          rw [if_neg hne]
          exact h

theorem handleAll_quiet (ds : List udpBuf) (u : UDP) : Quiet u (u.handleAll ds) := by
  induction ds generalizing u with
  | nil => exact Quiet.idle u
  | cons d ds ih => exact (handle_quiet u d.buf d.addr).seq (ih _)

theorem acceptSend_quiet (u : UDP) (c : Nat) (buf : List UInt8) :
    Quiet u (u.acceptSend c buf) := by
  unfold UDP.acceptSend
  split
  · exact Quiet.idle u
  · exact Quiet.store u c _ rfl rfl

theorem Accept_evolves (u : UDP) (now pick : Nat) (early late : List udpBuf) :
    Evolves u (u.Accept now pick early late).2 := by
  have h1 := (readFrom_quiet u now pick).evolves
  unfold UDP.Accept
  split
  · rename_i heq; rw [heq] at h1; exact h1
  · rename_i heq; rw [heq] at h1; exact h1
  · rename_i b u1 heq
    rw [heq] at h1
    have h1e := (handleAll_quiet early u1).evolves
    have h2 := newConnection_evolves (u1.handleAll early) b.addr
    split
    · rename_i heq2; rw [heq2] at h2; exact (h1.comp h1e).comp h2
    · rename_i c u2 heq2
      rw [heq2] at h2
      have h3 := (handleAll_quiet late u2).evolves
      split
      · exact ((h1.comp h1e).comp h2).comp h3
      · rename_i q _
        have h4 := (Quiet.store (u2.handleAll late) c
          { (u2.handleAll late).deref c with readBuf := q } rfl rfl).evolves
        exact (((h1.comp h1e).comp h2).comp h3).comp h4

theorem closeAll_evolves (cs : List Nat) (u : UDP) :
    Evolves u (cs.foldl (fun s c => (UDPConn.Close s c).2) u) := by
  induction cs generalizing u with
  | nil => exact Evolves.here u
  | cons c cs ih => exact (connClose_evolves u c).comp (ih _)

theorem closeAll_closes (cs : List Nat) (u : UDP) (c : Nat) (hc : c < u.heap.length)
    (hmem : c ∈ cs) :
    ((cs.foldl (fun s c => (UDPConn.Close s c).2) u).deref c).closedChan = true := by
  induction cs generalizing u with
  | nil => simp at hmem
  | cons d cs ih =>
    simp only [List.foldl_cons]
    have hlen := (connClose_evolves u d).len
    by_cases e : c = d
    · subst e
      exact (closeAll_evolves cs _).closed c (lt_of_lt_of_le hc hlen) (connClose_closes u c hc)
    · have hmem' : c ∈ cs := by
        rcases List.mem_cons.mp hmem with h | h
        · exact absurd h e
        · exact h
      exact ih _ (lt_of_lt_of_le hc hlen) hmem'

theorem Stable.chain {u v w : UDP} (h1 : Stable u v) (h2 : Stable v w) : Stable u w :=
  ⟨h2.lflag.trans h1.lflag, fun h => (h2.len (h1.lflag.trans h)).trans (h1.len h)⟩

theorem Quiet.stable {u u' : UDP} (h : Quiet u u') : Stable u u' := ⟨h.lflag, fun _ => h.len⟩

theorem newConnection_stable (u : UDP) (addr : NetAddr) : Stable u (u.newConnection addr).2 := by
  rw [newConnection_eq]
  split
  · exact ⟨rfl, fun _ => rfl⟩
  · split
    · exact ⟨rfl, fun _ => rfl⟩
    · rename_i h _
      exact ⟨rfl, fun h' => absurd h' h⟩

theorem connClose_stable (u : UDP) (c : Nat) : Stable u (UDPConn.Close u c).2 := by
  rw [connClose_eq]
  split
  · exact ⟨rfl, fun _ => rfl⟩
  · exact ⟨rfl, fun _ => by simp [UDP.handleClosedConnection, UDP.store]⟩

theorem Accept_stable (u : UDP) (now pick : Nat) (early late : List udpBuf) :
    Stable u (u.Accept now pick early late).2 := by
  have h1 := (readFrom_quiet u now pick).stable
  unfold UDP.Accept
  split
  · rename_i heq; rw [heq] at h1; exact h1
  · rename_i heq; rw [heq] at h1; exact h1
  · rename_i b u1 heq
    rw [heq] at h1
    have h1e := (handleAll_quiet early u1).stable
    have h2 := newConnection_stable (u1.handleAll early) b.addr
    split
    · rename_i heq2; rw [heq2] at h2; exact (h1.chain h1e).chain h2
    · rename_i c u2 heq2
      rw [heq2] at h2
      have h3 := (handleAll_quiet late u2).stable
      split
      · exact ((h1.chain h1e).chain h2).chain h3
      · rename_i q _
        have h4 := (Quiet.store (u2.handleAll late) c
          { (u2.handleAll late).deref c with readBuf := q } rfl rfl).stable
        exact (((h1.chain h1e).chain h2).chain h3).chain h4

theorem closeAll_stable (cs : List Nat) (u : UDP) :
    Stable u (cs.foldl (fun s c => (UDPConn.Close s c).2) u) := by
  induction cs generalizing u with
  | nil => exact ⟨rfl, fun _ => rfl⟩
  | cons c cs ih => exact (connClose_stable u c).chain (ih _)

theorem closeAll_lflag (cs : List Nat) (u : UDP) :
    (cs.foldl (fun s c => (UDPConn.Close s c).2) u).closedChan = u.closedChan :=
  (closeAll_stable cs u).lflag

theorem connClose_len (u : UDP) (c : Nat) : (UDPConn.Close u c).2.heap.length = u.heap.length := by
  rw [connClose_eq]
  split
  · rfl
  · simp [UDP.handleClosedConnection, UDP.store]

theorem closeAll_len (cs : List Nat) (u : UDP) :
    (cs.foldl (fun s c => (UDPConn.Close s c).2) u).heap.length = u.heap.length := by
  induction cs generalizing u with
  | nil => rfl
  | cons c cs ih => exact (ih _).trans (connClose_len u c)

theorem Close_eq (u : UDP) :
    u.Close =
      if u.closedChan = true then (some ErrClosed, u)
      else (none, (u.connectedConns.map Prod.snd).foldl (fun s c => (UDPConn.Close s c).2)
              { u with closedChan := true, conn := u.conn.Close }) := by
  unfold UDP.Close chanClose
  cases h : u.closedChan <;> simp [h]

theorem Close_evolves (u : UDP) : Evolves u u.Close.2 := by
  rw [Close_eq]
  split
  · exact Evolves.here u
  · have h1 : Evolves u { u with closedChan := true, conn := u.conn.Close } :=
      Evolves.of_same rfl rfl (fun _ => rfl) (fun _ => rfl)
    exact h1.comp (closeAll_evolves _ _)

theorem step_evolves (u : UDP) (op : Op) : Evolves u (step u op) := by
  cases op with
  | DialUDP addr => exact newConnection_evolves u addr
  | Accept now pick early late => exact Accept_evolves u now pick early late
  | acceptSend c buf => exact (acceptSend_quiet u c buf).evolves
  | ReadFrom p now pick => exact (ReadFrom_quiet u p now pick).evolves
  | Close => exact Close_evolves u
  | SetReadDeadline t => exact (SetReadDeadline_quiet u t).evolves
  | SetWriteDeadline t => exact (SetWriteDeadline_quiet u t).evolves
  | SetDeadline t => exact (SetDeadline_quiet u t).evolves
  | handle payload addr => exact (handle_quiet u payload addr).evolves
  | connRead c b now pick => exact (connRead_quiet u c b now pick).evolves
  | connWrite c b now res => exact (connWrite_quiet u c b now res).evolves
  | connClose c => exact connClose_evolves u c
  | connSetReadDeadline c t => exact (connSetReadDeadline_quiet u c t).evolves
  | connSetWriteDeadline c t => exact (connSetWriteDeadline_quiet u c t).evolves
  | connSetDeadline c t => exact (connSetDeadline_quiet u c t).evolves

theorem run_evolves (ops : List Op) (u : UDP) : Evolves u (run u ops) := by
  induction ops generalizing u with
  | nil => exact Evolves.here u
  | cons op ops ih => exact (step_evolves u op).comp (ih _)

theorem Inv_NewUDP (l : NetAddr) : Inv (NewUDP l) := by
  constructor
  · intro k c h; simp [NewUDP, mapGet] at h
  · intro c h
    have := lt_of_open _ c h
    simp [NewUDP] at this

theorem Inv_run (l : NetAddr) (ops : List Op) : Inv (run (NewUDP l) ops) :=
  (run_evolves ops _).inv (Inv_NewUDP l)

theorem Shut.of_stable {u u' : UDP} (hs : Shut u) (he : Evolves u u') (hst : Stable u u') :
    Shut u' := by
  intro hcl c
  have hcl0 : u.closedChan = true := hst.lflag ▸ hcl
  by_cases hc : c < u.heap.length
  · exact he.closed c hc (hs hcl0 c)
  · rw [deref_of_le u' c (by rw [hst.len hcl0]; omega)]
    rfl

/-- After the listener's `Close`, every connection is closed. -/
theorem Close_shut (u : UDP) (hi : Inv u) (hs : Shut u) (c : Nat) :
    (u.Close.2.deref c).closedChan = true := by
  rw [Close_eq]
  split
  · rename_i hcl
    exact hs hcl c
  · cases hopen : (u.deref c).closedChan with
    | true =>
      by_cases hc : c < u.heap.length
      · exact (closeAll_evolves _ _).closed c hc hopen
      · have hlen : ((u.connectedConns.map Prod.snd).foldl (fun s c => (UDPConn.Close s c).2)
            ({ u with closedChan := true, conn := u.conn.Close } : UDP)).heap.length
            = u.heap.length := closeAll_len _ _
        rw [deref_of_le _ c (by rw [hlen]; omega)]
        rfl
    | false =>
      have hreg := hi.open_reg c hopen
      exact closeAll_closes _ _ c (lt_of_open u c hopen) (mapGet_mem_values _ _ _ hreg)

theorem Close_closedChan (u : UDP) : u.Close.2.closedChan = true := by
  rw [Close_eq]
  split
  · assumption
  · exact closeAll_lflag _ _

theorem step_shut (u : UDP) (op : Op) (hi : Inv u) (hs : Shut u) : Shut (step u op) := by
  cases op with
  | DialUDP addr => exact hs.of_stable (newConnection_evolves u addr) (newConnection_stable u addr)
  | Accept now pick early late =>
    exact hs.of_stable (Accept_evolves u now pick early late) (Accept_stable u now pick early late)
  | acceptSend c buf =>
    exact hs.of_stable (acceptSend_quiet u c buf).evolves (acceptSend_quiet u c buf).stable
  | ReadFrom p now pick =>
    exact hs.of_stable (ReadFrom_quiet u p now pick).evolves (ReadFrom_quiet u p now pick).stable
  | Close => exact fun _ c => Close_shut u hi hs c
  | SetReadDeadline t =>
    exact hs.of_stable (SetReadDeadline_quiet u t).evolves (SetReadDeadline_quiet u t).stable
  | SetWriteDeadline t =>
    exact hs.of_stable (SetWriteDeadline_quiet u t).evolves (SetWriteDeadline_quiet u t).stable
  | SetDeadline t =>
    exact hs.of_stable (SetDeadline_quiet u t).evolves (SetDeadline_quiet u t).stable
  | handle payload addr =>
    exact hs.of_stable (handle_quiet u payload addr).evolves (handle_quiet u payload addr).stable
  | connRead c b now pick =>
    exact hs.of_stable (connRead_quiet u c b now pick).evolves
      (connRead_quiet u c b now pick).stable
  | connWrite c b now res =>
    exact hs.of_stable (connWrite_quiet u c b now res).evolves
      (connWrite_quiet u c b now res).stable
  | connClose c => exact hs.of_stable (connClose_evolves u c) (connClose_stable u c)
  | connSetReadDeadline c t =>
    exact hs.of_stable (connSetReadDeadline_quiet u c t).evolves
      (connSetReadDeadline_quiet u c t).stable
  | connSetWriteDeadline c t =>
    exact hs.of_stable (connSetWriteDeadline_quiet u c t).evolves
      (connSetWriteDeadline_quiet u c t).stable
  | connSetDeadline c t =>
    exact hs.of_stable (connSetDeadline_quiet u c t).evolves
      (connSetDeadline_quiet u c t).stable

theorem run_shut (ops : List Op) (u : UDP) (hi : Inv u) (hs : Shut u) : Shut (run u ops) := by
  induction ops generalizing u with
  | nil => exact hs
  | cons op ops ih => exact ih _ ((step_evolves u op).inv hi) (step_shut u op hi hs)

theorem Shut_NewUDP (l : NetAddr) : Shut (NewUDP l) := by
  intro h; simp [NewUDP] at h

theorem step_closedChan (u : UDP) (op : Op) (h : u.closedChan = true) :
    (step u op).closedChan = true := by
  cases op with
  | DialUDP addr => exact (newConnection_stable u addr).lflag.trans h
  | Accept now pick early late => exact (Accept_stable u now pick early late).lflag.trans h
  | acceptSend c buf => exact (acceptSend_quiet u c buf).lflag.trans h
  | ReadFrom p now pick => exact (ReadFrom_quiet u p now pick).lflag.trans h
  | Close => exact Close_closedChan u
  | SetReadDeadline t => exact (SetReadDeadline_quiet u t).lflag.trans h
  | SetWriteDeadline t => exact (SetWriteDeadline_quiet u t).lflag.trans h
  | SetDeadline t => exact (SetDeadline_quiet u t).lflag.trans h
  | handle payload addr => exact (handle_quiet u payload addr).lflag.trans h
  | connRead c b now pick => exact (connRead_quiet u c b now pick).lflag.trans h
  | connWrite c b now res => exact (connWrite_quiet u c b now res).lflag.trans h
  | connClose c => exact (connClose_stable u c).lflag.trans h
  | connSetReadDeadline c t => exact (connSetReadDeadline_quiet u c t).lflag.trans h
  | connSetWriteDeadline c t => exact (connSetWriteDeadline_quiet u c t).lflag.trans h
  | connSetDeadline c t => exact (connSetDeadline_quiet u c t).lflag.trans h

theorem run_closedChan (ops : List Op) (u : UDP) (h : u.closedChan = true) :
    (run u ops).closedChan = true := by
  induction ops generalizing u with
  | nil => exact h
  | cons op ops ih => exact ih _ (step_closedChan u op h)

theorem DialUDP_fresh (u : UDP) (A : NetAddr) (h : u.closedChan = false)
    (hn : mapGet u.connectedConns A.String = none) :
    u.DialUDP A = (.ok u.heap.length, registered u A) ∧
    (registered u A).heap.length = u.heap.length + 1 ∧
    (registered u A).deref u.heap.length =
      { closedChan := false, readBuf := [], readDeadline := 0, writeDeadline := 0,
        localAddr := u.LocalAddr, remote := A } ∧
    mapGet (registered u A).connectedConns A.String = some u.heap.length ∧
    (∀ k, k ≠ A.String → mapGet (registered u A).connectedConns k = mapGet u.connectedConns k) ∧
    (∀ c, c < u.heap.length → (registered u A).deref c = u.deref c) := by
  refine ⟨by simp [UDP.DialUDP, newConnection_eq, h, hn], ?_, ?_, ?_, ?_, ?_⟩
  · simp [registered]
  · exact deref_append_new u _ _
  · simp [registered, mapGet_mapSet]
  · intro k hk
    simp [registered, mapGet_mapSet, hk]
  · intro c hc
    exact deref_append_lt u c _ _ hc

theorem select_only_data (pick : Nat) :
    selectCase (readyCases false true false) pick = some ReadCase.data := by
  simp [selectCase, readyCases, Nat.mod_one]

theorem handle_registered (u : UDP) (payload : List UInt8) (S : NetAddr) (c : Nat)
    (h : mapGet u.connectedConns S.String = some c) :
    u.handle payload S =
      u.store c { u.deref c with readBuf := trySend (u.deref c).readBuf payload } := by
  simp [UDP.handle, h]

theorem handle_unregistered (u : UDP) (payload : List UInt8) (S : NetAddr)
    (h : mapGet u.connectedConns S.String = none) :
    u.handle payload S = { u with readBuf := trySend u.readBuf ⟨S, payload⟩ } := by
  simp [UDP.handle, h]

theorem selectCase_mem (ready : List ReadCase) (pick : Nat) (h : ready ≠ []) :
    ∃ r, selectCase ready pick = some r ∧ r ∈ ready := by
  have hpos : 0 < ready.length := List.length_pos.mpr h
  have hlt : pick % ready.length < ready.length := Nat.mod_lt _ hpos
  refine ⟨ready.get ⟨pick % ready.length, hlt⟩, ?_, List.get_mem _ _ _⟩
  simp [selectCase, List.getElem?_eq_getElem hlt]

theorem mem_readyCases (r : ReadCase) (c d t : Bool) (h : r ∈ readyCases c d t) :
    (r = ReadCase.closed ∧ c = true) ∨ (r = ReadCase.data ∧ d = true) ∨
      (r = ReadCase.timer ∧ t = true) := by
  cases c <;> cases d <;> cases t <;> simp [readyCases] at h <;> (try rcases h with h | h | h) <;>
    (try rcases h with h | h) <;> simp_all

theorem timeAfter_true (now t : Nat) (h : timeAfter now t = true) : t ≠ 0 ∧ t ≤ now := by
  unfold timeAfter at h
  by_cases h0 : t = 0
  · simp [h0] at h
  · simpa [h0] using h

theorem timeAfter_false (now t : Nat) (h : t = 0 ∨ now < t) : timeAfter now t = false := by
  unfold timeAfter
  rcases h with h | h
  · simp [h]
  · by_cases h0 : t = 0
    · simp [h0]
    · simp [h0]; omega

/-- What `Read` yields on a closed connection: never a parked caller; `ErrClosed`, or the
payload at the head of the inbound queue, or `ErrTimeout` when the read deadline has run
out. -/
theorem connRead_closed (u : UDP) (c : Nat) (b : List UInt8) (now pick : Nat)
    (hcl : (u.deref c).closedChan = true) :
    UDPConn.Read u c b now pick = (some (0, some ErrClosed, b), u) ∨
    (∃ buf rest, (u.deref c).readBuf = buf :: rest ∧
      UDPConn.Read u c b now pick =
        (some ((copy b buf).1, none, (copy b buf).2),
          u.store c { u.deref c with readBuf := rest })) ∨
    ((u.deref c).readDeadline ≠ 0 ∧ (u.deref c).readDeadline ≤ now ∧
      UDPConn.Read u c b now pick = (some (0, some ErrTimeout, b), u)) := by
  obtain ⟨r, hr, hmem⟩ := selectCase_mem
    (readyCases (u.deref c).closedChan (!(u.deref c).readBuf.isEmpty)
      (timeAfter now (u.deref c).readDeadline)) pick (by simp [readyCases, hcl])
  rcases mem_readyCases _ _ _ _ hmem with h | h | h
  · left
    unfold UDPConn.Read
    simp only [hr, h.1]
  · right; left
    cases hq : (u.deref c).readBuf with
    | nil => simp [hq] at h
    | cons buf rest =>
      refine ⟨buf, rest, rfl, ?_⟩
      rw [hq] at hr
      unfold UDPConn.Read
      simp only [hq, hr, h.1]
  · right; right
    obtain ⟨h0, hle⟩ := timeAfter_true _ _ h.2
    refine ⟨h0, hle, ?_⟩
    unfold UDPConn.Read
    simp only [hr, h.1]

theorem connWrite_closed (u : UDP) (c : Nat) (b : List UInt8) (now : Nat)
    (res : Nat × Option GoError) (hcl : (u.deref c).closedChan = true) :
    UDPConn.Write u c b now res = ((0, some ErrClosed), u) := by
  simp [UDPConn.Write, hcl]

/-- What `Accept` yields on a closed listener: never a parked caller and never a connection;
`ErrClosed`, or `ErrTimeout` when the read deadline has run out. -/
theorem Accept_closed (u : UDP) (now pick : Nat) (early late : List udpBuf)
    (hcl : u.closedChan = true) :
    (u.Accept now pick early late).1 = some (.error ErrClosed) ∨
    ((u.Accept now pick early late).1 = some (.error ErrTimeout) ∧
      u.readDeadline ≠ 0 ∧ u.readDeadline ≤ now) := by
  obtain ⟨r, hr, hmem⟩ := selectCase_mem
    (readyCases u.closedChan (!u.readBuf.isEmpty) (timeAfter now u.readDeadline)) pick
    (by simp [readyCases, hcl])
  rcases mem_readyCases _ _ _ _ hmem with h | h | h
  · left
    simp only [UDP.Accept, UDP.readFrom, hr, h.1]
  · left
    cases hq : u.readBuf with
    | nil => simp [hq] at h
    | cons buf rest =>
      rw [hq] at hr
      have hcl' : (({ u with readBuf := rest } : UDP).handleAll early).closedChan = true :=
        (handleAll_quiet early _).lflag.trans hcl
      have hnc : (({ u with readBuf := rest } : UDP).handleAll early).newConnection buf.addr =
          (.error ErrClosed, ({ u with readBuf := rest } : UDP).handleAll early) := by
        rw [newConnection_eq, if_pos hcl']
      simp only [UDP.Accept, UDP.readFrom, hq, hr, h.1]
      rw [hnc]
  · right
    obtain ⟨h0, hle⟩ := timeAfter_true _ _ h.2
    refine ⟨?_, h0, hle⟩
    simp only [UDP.Accept, UDP.readFrom, hr, h.1]

/-- The sibling path: `Write` on an open connection whose write deadline has not run out
hands the datagram to the physical socket exactly once and returns the socket's answer. -/
theorem connWrite_reaches_socket (u : UDP) (c : Nat) (b : List UInt8) (now : Nat)
    (res : Nat × Option GoError) (hopen : (u.deref c).closedChan = false)
    (hdl : timeIsPast now (u.deref c).writeDeadline = false) :
    UDPConn.Write u c b now res =
      (res, { u with conn := { u.conn with sent := u.conn.sent ++ [(b, (u.deref c).remote)] } }) := by
  simp [UDPConn.Write, hopen, hdl, PacketConn.WriteTo]

theorem WriteTo_closed (fuel : Nat) (u : UDP) (clock : Nat → Nat) (p : List UInt8)
    (addr : NetAddr) (hcl : u.closedChan = true) :
    u.WriteTo (fuel + 1) clock p addr = some ((0, some ErrClosed), u) := by
  simp [UDP.WriteTo, hcl]

theorem handle_deref (u : UDP) (hi : Inv u) (key : String) (c : Nat)
    (hreg : mapGet u.connectedConns key = some c) (p : List UInt8) (S : NetAddr) :
    (u.handle p S).deref c =
      if S.String = key then { u.deref c with readBuf := trySend (u.deref c).readBuf p }
      else u.deref c := by
  have hlt := lt_of_open u c (hi.reg key c hreg).1
  by_cases hk : S.String = key
  · rw [if_pos hk, handle_registered u p S c (hk ▸ hreg), deref_store, if_pos ⟨rfl, hlt⟩]
  · rw [if_neg hk]
    cases hS : mapGet u.connectedConns S.String with
    | none => rw [handle_unregistered u p S hS]; rfl
    | some c' =>
      rw [handle_registered u p S c' hS, deref_store, if_neg]
      rintro ⟨e, _⟩
      subst e
      exact hk ((hi.reg _ _ hS).2.symm.trans (hi.reg _ _ hreg).2)

theorem handleAll_deref (ds : List udpBuf) (u : UDP) (hi : Inv u) (key : String) (c : Nat)
    (hreg : mapGet u.connectedConns key = some c) :
    (u.handleAll ds).deref c =
      { u.deref c with readBuf := (fromPeer key ds).foldl trySend (u.deref c).readBuf } := by
  induction ds generalizing u with
  | nil => rfl
  | cons d ds ih =>
    have hq := handle_quiet u d.buf d.addr
    have hreg' : mapGet (u.handle d.buf d.addr).connectedConns key = some c := by
      rw [hq.conns]; exact hreg
    have h := ih (u.handle d.buf d.addr) (hq.evolves.inv hi) hreg'
    have hcons : (u.handleAll (d :: ds)) = (u.handle d.buf d.addr).handleAll ds := rfl
    rw [hcons, h, handle_deref u hi key c hreg]
    by_cases hk : d.addr.String = key
    · simp [fromPeer, hk]
    · simp [fromPeer, hk]

theorem foldl_trySend (q init : List (List UInt8)) (h : init.length + q.length ≤ bufferLen) :
    q.foldl trySend init = init ++ q := by
  induction q generalizing init with
  | nil => simp
  | cons x q ih =>
    have hx : init.length < bufferLen := by simp only [List.length_cons] at h; omega
    have hstep : trySend init x = init ++ [x] := by simp [trySend, hx]
    simp only [List.foldl_cons, hstep]
    rw [ih (init ++ [x]) (by simp only [List.length_append, List.length_cons,
      List.length_nil] at h ⊢; omega)]
    simp

/-! ## The claims -/

/-- C1: `DialUDP(A)` returns `ErrClosed` on a closed listener, `ErrConnected` on an open one
whose peer map has an entry under `A.String()`, and leaves the listener as it is in both
cases; otherwise it returns a connection that was not allocated before, open, with remote
address `A`, an empty inbound queue and zero deadlines, and the peer map gains the entry
`A.String() ↦` that connection and is otherwise unchanged, as are all other connections. -/
theorem C1_DialUDP_contract (u : UDP) (A : NetAddr) :
    (u.closedChan = true → u.DialUDP A = (.error ErrClosed, u)) ∧
    (u.closedChan = false → (mapGet u.connectedConns A.String).isSome = true →
      u.DialUDP A = (.error ErrConnected, u)) ∧
    (u.closedChan = false → mapGet u.connectedConns A.String = none →
      ∃ u', u.DialUDP A = (.ok u.heap.length, u') ∧
        u'.heap.length = u.heap.length + 1 ∧
        u'.deref u.heap.length =
          { closedChan := false, readBuf := [], readDeadline := 0, writeDeadline := 0,
            localAddr := u.LocalAddr, remote := A } ∧
        mapGet u'.connectedConns A.String = some u.heap.length ∧
        (∀ k, k ≠ A.String → mapGet u'.connectedConns k = mapGet u.connectedConns k) ∧
        (∀ c, c < u.heap.length → u'.deref c = u.deref c) ∧
        u'.closedChan = false ∧ u'.readBuf = u.readBuf ∧ u'.conn = u.conn) := by
  refine ⟨fun h => ?_, fun h hs => ?_, fun h hn => ?_⟩
  · simp [UDP.DialUDP, newConnection_eq, h]
  · simp [UDP.DialUDP, newConnection_eq, h, hs]
  · obtain ⟨h1, h2, h3, h4, h5, h6⟩ := DialUDP_fresh u A h hn
    exact ⟨registered u A, h1, h2, h3, h4, h5, h6, h, rfl, rfl⟩

/-- C1 at a fresh listener: the first dial of an address succeeds and registers connection
`0`, a second dial of the same address fails with `ErrConnected`, and a dial on the closed
listener fails with `ErrClosed`. -/
theorem C1_DialUDP_contract_witness :
    (∃ u', (NewUDP ⟨"udp", "127.0.0.1:9"⟩).DialUDP ⟨"udp", "10.0.0.1:53"⟩ = (.ok 0, u') ∧
      mapGet u'.connectedConns "10.0.0.1:53" = some 0) ∧
    ((NewUDP ⟨"udp", "127.0.0.1:9"⟩).DialUDP ⟨"udp", "10.0.0.1:53"⟩).2.DialUDP
        ⟨"udp", "10.0.0.1:53"⟩ =
      (.error ErrConnected, ((NewUDP ⟨"udp", "127.0.0.1:9"⟩).DialUDP ⟨"udp", "10.0.0.1:53"⟩).2) ∧
    (NewUDP ⟨"udp", "127.0.0.1:9"⟩).Close.2.DialUDP ⟨"udp", "10.0.0.1:53"⟩ =
      (.error ErrClosed, (NewUDP ⟨"udp", "127.0.0.1:9"⟩).Close.2) := by
  refine ⟨?_, ?_, ?_⟩
  · obtain ⟨u', h1, _, _, h4, _⟩ :=
      (C1_DialUDP_contract (NewUDP ⟨"udp", "127.0.0.1:9"⟩) ⟨"udp", "10.0.0.1:53"⟩).2.2 rfl rfl
    exact ⟨u', h1, h4⟩
  · exact (C1_DialUDP_contract _ ⟨"udp", "10.0.0.1:53"⟩).2.1 rfl (by decide)
  · exact (C1_DialUDP_contract _ ⟨"udp", "10.0.0.1:53"⟩).1 (by decide)

/-- C5: `Close` is a one-shot, on the listener and on a connection.  The first `Close` of an
open object returns nil and marks it closed; after any further calls whatsoever (among them
a new `DialUDP` of the same remote address), another `Close` of the same object returns
`ErrClosed` and changes nothing, the peer map included. -/
theorem C5_Close_one_shot (u : UDP) (c : Nat) (ops : List Op) :
    (u.closedChan = false →
      u.Close.1 = none ∧ u.Close.2.closedChan = true ∧
      (run u.Close.2 ops).Close = (some ErrClosed, run u.Close.2 ops)) ∧
    ((u.deref c).closedChan = false →
      (UDPConn.Close u c).1 = none ∧ ((UDPConn.Close u c).2.deref c).closedChan = true ∧
      UDPConn.Close (run (UDPConn.Close u c).2 ops) c =
        (some ErrClosed, run (UDPConn.Close u c).2 ops)) := by
  refine ⟨fun h => ⟨?_, Close_closedChan u, ?_⟩, fun h => ?_⟩
  · rw [Close_eq]; simp [h]
  · have hcl := run_closedChan ops _ (Close_closedChan u)
    rw [Close_eq (run u.Close.2 ops)]
    simp [hcl]
  · have hlt := lt_of_open u c h
    have hcl := connClose_closes u c hlt
    have hlt' : c < (UDPConn.Close u c).2.heap.length := by rw [connClose_len]; exact hlt
    refine ⟨?_, hcl, ?_⟩
    · rw [connClose_eq]; simp [h]
    · have hlater := (run_evolves ops (UDPConn.Close u c).2).closed c hlt' hcl
      rw [connClose_eq (run (UDPConn.Close u c).2 ops)]
      simp [hlater]

/-- C5 on a run: connection `0` is dialled for an address and closed, the address is dialled
again (connection `1`), and connection `0` is closed a second time: the second `Close`
returns `ErrClosed` and the peer map still holds the entry of connection `1`. -/
theorem C5_Close_one_shot_witness :
    UDPConn.Close (run (UDPConn.Close ((NewUDP ⟨"udp", ":9"⟩).DialUDP ⟨"udp", "10.0.0.1:53"⟩).2 0).2
        [Op.DialUDP ⟨"udp", "10.0.0.1:53"⟩]) 0 =
      (some ErrClosed,
        run (UDPConn.Close ((NewUDP ⟨"udp", ":9"⟩).DialUDP ⟨"udp", "10.0.0.1:53"⟩).2 0).2
          [Op.DialUDP ⟨"udp", "10.0.0.1:53"⟩]) ∧
    mapGet (run (UDPConn.Close ((NewUDP ⟨"udp", ":9"⟩).DialUDP ⟨"udp", "10.0.0.1:53"⟩).2 0).2
        [Op.DialUDP ⟨"udp", "10.0.0.1:53"⟩]).connectedConns "10.0.0.1:53" = some 1 :=
  ⟨((C5_Close_one_shot ((NewUDP ⟨"udp", ":9"⟩).DialUDP ⟨"udp", "10.0.0.1:53"⟩).2 0
      [Op.DialUDP ⟨"udp", "10.0.0.1:53"⟩]).2 (by decide)).2.2, by decide⟩

/-- C6: in a state reached from `NewUDP` with the listener open and connection `c` registered
under `A.String()`, `c.Close()` returns nil, removes the entry of `A.String()` and leaves
every other entry as it is; the `DialUDP(A)` that follows succeeds and returns a connection
other than `c`, open, with an empty inbound queue and remote address `A`, registered under
`A.String()`. -/
theorem C6_close_then_redial (l : NetAddr) (ops : List Op) (A : NetAddr) (c : Nat)
    (hopen : (run (NewUDP l) ops).closedChan = false)
    (hreg : mapGet (run (NewUDP l) ops).connectedConns A.String = some c) :
    (UDPConn.Close (run (NewUDP l) ops) c).1 = none ∧
    mapGet (UDPConn.Close (run (NewUDP l) ops) c).2.connectedConns A.String = none ∧
    (∀ k, k ≠ A.String →
      mapGet (UDPConn.Close (run (NewUDP l) ops) c).2.connectedConns k =
        mapGet (run (NewUDP l) ops).connectedConns k) ∧
    ∃ c' u', (UDPConn.Close (run (NewUDP l) ops) c).2.DialUDP A = (.ok c', u') ∧
      c' ≠ c ∧ (u'.deref c').closedChan = false ∧ (u'.deref c').readBuf = [] ∧
      (u'.deref c').remote = A ∧ mapGet u'.connectedConns A.String = some c' := by
  have hi := Inv_run l ops
  generalize run (NewUDP l) ops = u at hopen hreg hi
  obtain ⟨hco, hkey⟩ := hi.reg _ c hreg
  have hlt := lt_of_open u c hco
  have hstate : UDPConn.Close u c =
      (none, (u.store c { u.deref c with closedChan := true }).handleClosedConnection c) := by
    rw [connClose_eq]; simp [hco]
  have hrem : ((u.store c { u.deref c with closedChan := true }).deref c).remote.String
      = A.String := by
    rw [deref_store]; simp [hlt, hkey]
  have hmap : ∀ k, mapGet (UDPConn.Close u c).2.connectedConns k =
      if k = A.String then none else mapGet u.connectedConns k := by
    intro k
    rw [hstate]
    simp only [UDP.handleClosedConnection, hrem, mapGet_mapDelete]
    rfl
  have hnone : mapGet (UDPConn.Close u c).2.connectedConns A.String = none := by
    rw [hmap]; simp
  have hop : (UDPConn.Close u c).2.closedChan = false := (connClose_stable u c).lflag.trans hopen
  refine ⟨by rw [hstate], hnone, fun k hk => by rw [hmap, if_neg hk], ?_⟩
  obtain ⟨h1, _, h3, h4, _⟩ := DialUDP_fresh (UDPConn.Close u c).2 A hop hnone
  refine ⟨_, _, h1, ?_, ?_, ?_, ?_, h4⟩
  · rw [connClose_len]; omega
  all_goals rw [h3]

/-- C6 on a run: after dialling an address (connection `0`) and closing that connection, the
address can be dialled again and yields connection `1`. -/
theorem C6_close_then_redial_witness :
    (UDPConn.Close (run (NewUDP ⟨"udp", ":9"⟩) [Op.DialUDP ⟨"udp", "10.0.0.1:53"⟩]) 0).1 = none ∧
    ∃ c' u', (UDPConn.Close (run (NewUDP ⟨"udp", ":9"⟩) [Op.DialUDP ⟨"udp", "10.0.0.1:53"⟩]) 0).2.DialUDP
        ⟨"udp", "10.0.0.1:53"⟩ = (.ok c', u') ∧ c' ≠ 0 ∧ (u'.deref c').closedChan = false := by
  obtain ⟨h1, _, _, c', u', h2, h3, h4, _⟩ :=
    C6_close_then_redial ⟨"udp", ":9"⟩ [Op.DialUDP ⟨"udp", "10.0.0.1:53"⟩] ⟨"udp", "10.0.0.1:53"⟩ 0
      (by decide) (by decide)
  exact ⟨h1, c', u', h2, h3, h4⟩



/-- C7, as the claim states it, fails: the pending-accept queue of an open listener with no
read deadline holds `[7, 8, 9]` from an address with no entry in the peer map; during
`Accept`, after `newConnection` has registered the connection and before the preload, the
reader task delivers `[1]` from the same address; `Accept` returns connection `0`, and the
first `Read` into a buffer of three bytes returns `1` byte, `[1]`, and not `[7, 8, 9]`. -/
theorem C7_first_Read_counterexample :
    (run (NewUDP ⟨"udp", ":9"⟩) [Op.handle [7, 8, 9] ⟨"udp", "10.0.0.1:53"⟩]).closedChan = false ∧
    (run (NewUDP ⟨"udp", ":9"⟩) [Op.handle [7, 8, 9] ⟨"udp", "10.0.0.1:53"⟩]).readDeadline = 0 ∧
    (run (NewUDP ⟨"udp", ":9"⟩) [Op.handle [7, 8, 9] ⟨"udp", "10.0.0.1:53"⟩]).readBuf =
      [⟨⟨"udp", "10.0.0.1:53"⟩, [7, 8, 9]⟩] ∧
    mapGet (run (NewUDP ⟨"udp", ":9"⟩)
      [Op.handle [7, 8, 9] ⟨"udp", "10.0.0.1:53"⟩]).connectedConns "10.0.0.1:53" = none ∧
    ((run (NewUDP ⟨"udp", ":9"⟩) [Op.handle [7, 8, 9] ⟨"udp", "10.0.0.1:53"⟩]).Accept 0 0 []
      [⟨⟨"udp", "10.0.0.1:53"⟩, [1]⟩]).1 = some (.ok 0) ∧
    (UDPConn.Read ((run (NewUDP ⟨"udp", ":9"⟩)
      [Op.handle [7, 8, 9] ⟨"udp", "10.0.0.1:53"⟩]).Accept 0 0 []
        [⟨⟨"udp", "10.0.0.1:53"⟩, [1]⟩]).2 0 [0, 0, 0] 0 0).1 = some (1, none, [1, 0, 0]) :=
  ⟨by decide, by decide, by decide, by decide, rfl, by decide⟩

/-- C7, amended: in a state `u` reached from `NewUDP`, with the listener open, no read
deadline, the payload `P` from `A` at the head of the pending-accept queue and no entry for
`A` in the peer map, `Accept` allocates a new open connection with remote address `A` and
registers it under `A.String()`.  With fewer than `bufferLen` payloads delivered from `A`
by the reader task between that registration and the preload, `Accept` returns the
connection, its inbound queue holding those payloads followed by `P`.  When the reader task
delivers none from `A` in that window, the `Read(b)` that follows returns
`n = min(len(b), len(P))` and a nil error, with `b[0..n) = P[0..n)` and the rest of `b`
untouched, and leaves the inbound queue empty, so that nothing of `P` remains for a later
`Read`. -/
theorem C7_accept_then_first_read (l : NetAddr) (ops : List Op) (u : UDP) (A : NetAddr)
    (P : List UInt8) (rest : List udpBuf) (now pick : Nat) (early late : List udpBuf)
    (b : List UInt8) (now' pick' : Nat)
    (hu : u = run (NewUDP l) ops)
    (hopen : u.closedChan = false) (hdl : u.readDeadline = 0)
    (hq : u.readBuf = ⟨A, P⟩ :: rest) (hfree : mapGet u.connectedConns A.String = none) :
    (u.Accept now pick early late).2.heap.length = u.heap.length + 1 ∧
    ((u.Accept now pick early late).2.deref u.heap.length).remote = A ∧
    ((u.Accept now pick early late).2.deref u.heap.length).closedChan = false ∧
    mapGet (u.Accept now pick early late).2.connectedConns A.String = some u.heap.length ∧
    ((fromPeer A.String late).length < bufferLen →
      (u.Accept now pick early late).1 = some (.ok u.heap.length) ∧
      ((u.Accept now pick early late).2.deref u.heap.length).readBuf =
        fromPeer A.String late ++ [P]) ∧
    (fromPeer A.String late = [] →
      (u.Accept now pick early late).1 = some (.ok u.heap.length) ∧
      (UDPConn.Read (u.Accept now pick early late).2 u.heap.length b now' pick').1 =
        some (min b.length P.length, none,
          P.take (min b.length P.length) ++ b.drop (min b.length P.length)) ∧
      (P.take (min b.length P.length) ++ b.drop (min b.length P.length)).take
        (min b.length P.length) = P.take (min b.length P.length) ∧
      ((UDPConn.Read (u.Accept now pick early late).2 u.heap.length b now' pick').2.deref
        u.heap.length).readBuf = []) := by
  have hi : Inv u := hu ▸ Inv_run l ops
  have hrf : u.readFrom now pick = (some (.ok ⟨A, P⟩), { u with readBuf := rest }) := by
    simp [UDP.readFrom, hopen, hdl, hq, timeAfter, select_only_data]
  have hi1 : Inv ({ u with readBuf := rest } : UDP) :=
    (Quiet.of_heap_eq rfl rfl rfl : Quiet u ({ u with readBuf := rest } : UDP)).evolves.inv hi
  have hqe := handleAll_quiet early ({ u with readBuf := rest } : UDP)
  generalize hu1e : ({ u with readBuf := rest } : UDP).handleAll early = u1e at hqe
  have hi1e : Inv u1e := hqe.evolves.inv hi1
  have hopen1e : u1e.closedChan = false := hqe.lflag.trans hopen
  have hfree1e : mapGet u1e.connectedConns A.String = none := by rw [hqe.conns]; exact hfree
  have hlen1e : u1e.heap.length = u.heap.length := hqe.len
  obtain ⟨h1, h2, h3, h4, _, _⟩ := DialUDP_fresh u1e A hopen1e hfree1e
  have h1' : u1e.newConnection A = (.ok u1e.heap.length, registered u1e A) := h1
  have hi2 : Inv (registered u1e A) := (registered_evolves u1e A hfree1e).inv hi1e
  have hq3 := handleAll_quiet late (registered u1e A)
  have hder3 := handleAll_deref late (registered u1e A) hi2 A.String u1e.heap.length h4
  rw [h3] at hder3
  simp only [] at hder3
  rw [hlen1e] at h1' h2 h4 hder3
  generalize hu3 : (registered u1e A).handleAll late = u3 at hq3 hder3
  have hlt3 : u.heap.length < u3.heap.length := by rw [hq3.len, h2]; exact Nat.lt_succ_self _
  have hacc : u.Accept now pick early late =
      match chanSend (u3.deref u.heap.length).readBuf P with
      | none => (none, u3)
      | some q => (some (.ok u.heap.length),
          u3.store u.heap.length { u3.deref u.heap.length with readBuf := q }) := by
    unfold UDP.Accept
    rw [hrf]
    simp only [hu1e]
    rw [h1']
    simp only [hu3]
  have hQ : Quiet (registered u1e A) (u.Accept now pick early late).2 := by
    rw [hacc]
    split
    · exact hq3
    · exact hq3.seq (Quiet.store u3 _ _ rfl rfl)
  have hfresh : (registered u1e A).deref u.heap.length =
      { closedChan := false, readBuf := [], readDeadline := 0, writeDeadline := 0,
        localAddr := u1e.LocalAddr, remote := A } := by
    rw [← hlen1e]; exact h3
  have hsent : (fromPeer A.String late).length < bufferLen →
      u.Accept now pick early late = (some (.ok u.heap.length),
        u3.store u.heap.length
          { closedChan := false, readBuf := fromPeer A.String late ++ [P], readDeadline := 0,
            writeDeadline := 0, localAddr := u1e.LocalAddr, remote := A }) := by
    intro hlt
    have hfold : (fromPeer A.String late).foldl trySend ([] : List (List UInt8))
        = fromPeer A.String late := by
      rw [foldl_trySend _ [] (by simp only [List.length_nil]; omega)]; simp
    rw [hfold] at hder3
    rw [hacc, hder3]
    simp [chanSend, hlt]
  refine ⟨by rw [hQ.len]; exact h2, by rw [hQ.remote, hfresh], by rw [hQ.flag, hfresh],
    by rw [hQ.conns]; exact h4, fun hlt => ?_, fun hnone => ?_⟩
  · rw [hsent hlt]
    exact ⟨rfl, by rw [deref_store, if_pos ⟨rfl, hlt3⟩]⟩
  · have hlt : (fromPeer A.String late).length < bufferLen := by
      rw [hnone]; simp [bufferLen]
    have hacc2 := hsent hlt
    rw [hnone] at hacc2
    have hder : (u.Accept now pick early late).2.deref u.heap.length =
        { closedChan := false, readBuf := [P], readDeadline := 0, writeDeadline := 0,
          localAddr := u1e.LocalAddr, remote := A } := by
      rw [hacc2]
      simp only []
      rw [deref_store, if_pos ⟨rfl, hlt3⟩]
      rfl
    have hread : UDPConn.Read (u.Accept now pick early late).2 u.heap.length b now' pick' =
        (some ((copy b P).1, none, (copy b P).2),
          (u.Accept now pick early late).2.store u.heap.length
            { closedChan := false, readBuf := [], readDeadline := 0, writeDeadline := 0,
              localAddr := u1e.LocalAddr, remote := A }) := by
      unfold UDPConn.Read
      simp only [hder]
      simp [timeAfter, select_only_data]
    have hlen2 : u.heap.length < (u.Accept now pick early late).2.heap.length := by
      rw [hQ.len, h2]; exact Nat.lt_succ_self _
    refine ⟨by rw [hacc2], ?_, ?_, ?_⟩
    · rw [hread]; rfl
    · rw [List.take_append_of_le_length (by simp)]
      simp [List.take_take]
    · rw [hread]
      simp only []
      rw [deref_store, if_pos ⟨rfl, hlen2⟩]

/-- C7 amended, on a fresh listener to which the reader task has delivered `[7, 8, 9]` from
an unknown address: during `Accept` the reader task delivers a datagram from another
address; `Accept` returns connection `0`, and a `Read` into a buffer of two bytes returns `2`
with the buffer holding `[7, 8]`. -/
theorem C7_accept_then_first_read_witness :
    ((run (NewUDP ⟨"udp", ":9"⟩) [Op.handle [7, 8, 9] ⟨"udp", "10.0.0.1:53"⟩]).Accept 0 0 []
      [⟨⟨"udp", "10.0.0.2:53"⟩, [5]⟩]).1 = some (.ok 0) ∧
    (UDPConn.Read ((run (NewUDP ⟨"udp", ":9"⟩)
      [Op.handle [7, 8, 9] ⟨"udp", "10.0.0.1:53"⟩]).Accept 0 0 []
        [⟨⟨"udp", "10.0.0.2:53"⟩, [5]⟩]).2 0 [0, 0] 0 0).1 = some (2, none, [7, 8]) := by
  have h := (C7_accept_then_first_read ⟨"udp", ":9"⟩
    [Op.handle [7, 8, 9] ⟨"udp", "10.0.0.1:53"⟩]
    (run (NewUDP ⟨"udp", ":9"⟩) [Op.handle [7, 8, 9] ⟨"udp", "10.0.0.1:53"⟩])
    ⟨"udp", "10.0.0.1:53"⟩ [7, 8, 9] [] 0 0 [] [⟨⟨"udp", "10.0.0.2:53"⟩, [5]⟩] [0, 0] 0 0
    rfl rfl rfl rfl rfl).2.2.2.2.2 (by decide)
  exact ⟨h.1, h.2.1⟩

/-- C8: one delivery turn of the reader task, for a datagram `payload` from `S`, in a state
reached from `NewUDP`.  The peer map and the set of connections are untouched.  If the peer
map has connection `c` under `S.String()`, the payload goes to the tail of the inbound queue
of `c`, or is dropped when that queue holds `bufferLen = 9000` payloads; nothing else of `c`
changes, every other connection is unchanged and so is the pending-accept queue.  Otherwise
`(payload, S)` goes to the tail of the pending-accept queue, or is dropped when it is full,
and every connection is unchanged.  Hence the queue of a connection registered under another
address string never receives the payload, and two payloads delivered one after the other
from `S` are queued in that order. -/
theorem C8_handle_one_queue (l : NetAddr) (ops : List Op) (payload : List UInt8) (S : NetAddr) :
    ((run (NewUDP l) ops).handle payload S).connectedConns =
      (run (NewUDP l) ops).connectedConns ∧
    ((run (NewUDP l) ops).handle payload S).heap.length = (run (NewUDP l) ops).heap.length ∧
    (∀ c, mapGet (run (NewUDP l) ops).connectedConns S.String = some c →
      ((run (NewUDP l) ops).handle payload S).deref c =
        { (run (NewUDP l) ops).deref c with
          readBuf :=
            if ((run (NewUDP l) ops).deref c).readBuf.length < 9000
            then ((run (NewUDP l) ops).deref c).readBuf ++ [payload]
            else ((run (NewUDP l) ops).deref c).readBuf } ∧
      (∀ c', c' ≠ c →
        ((run (NewUDP l) ops).handle payload S).deref c' = (run (NewUDP l) ops).deref c') ∧
      ((run (NewUDP l) ops).handle payload S).readBuf = (run (NewUDP l) ops).readBuf) ∧
    (mapGet (run (NewUDP l) ops).connectedConns S.String = none →
      ((run (NewUDP l) ops).handle payload S).readBuf =
        (if (run (NewUDP l) ops).readBuf.length < 9000
         then (run (NewUDP l) ops).readBuf ++ [⟨S, payload⟩]
         else (run (NewUDP l) ops).readBuf) ∧
      ∀ c', ((run (NewUDP l) ops).handle payload S).deref c' = (run (NewUDP l) ops).deref c') ∧
    (∀ B cB, B ≠ S.String → mapGet (run (NewUDP l) ops).connectedConns B = some cB →
      ((run (NewUDP l) ops).handle payload S).deref cB = (run (NewUDP l) ops).deref cB) ∧
    (∀ c payload2, mapGet (run (NewUDP l) ops).connectedConns S.String = some c →
      ((run (NewUDP l) ops).deref c).readBuf.length + 2 ≤ 9000 →
      ((((run (NewUDP l) ops).handle payload S).handle payload2 S).deref c).readBuf =
        ((run (NewUDP l) ops).deref c).readBuf ++ [payload, payload2]) := by
  have hi := Inv_run l ops
  generalize run (NewUDP l) ops = u at hi
  have hq := handle_quiet u payload S
  have hreg : ∀ c, mapGet u.connectedConns S.String = some c →
      (u.handle payload S).deref c =
        { u.deref c with readBuf := trySend (u.deref c).readBuf payload } ∧
      (∀ c', c' ≠ c → (u.handle payload S).deref c' = u.deref c') ∧
      (u.handle payload S).readBuf = u.readBuf := by
    intro c hc
    have hlt := lt_of_open u c (hi.reg _ c hc).1
    rw [handle_registered u payload S c hc]
    refine ⟨by rw [deref_store, if_pos ⟨rfl, hlt⟩], fun c' hne => ?_, rfl⟩
    rw [deref_store, if_neg (fun h => hne h.1.symm)]
  refine ⟨hq.conns, hq.len, fun c hc => ?_, fun hn => ?_, fun B cB hB hcB => ?_,
    fun c p2 hc hroom => ?_⟩
  · obtain ⟨h1, h2, h3⟩ := hreg c hc
    exact ⟨by rw [h1]; simp [trySend, bufferLen], h2, h3⟩
  · rw [handle_unregistered u payload S hn]
    exact ⟨by simp [trySend, bufferLen], fun _ => rfl⟩
  · cases hS : mapGet u.connectedConns S.String with
    | none => rw [handle_unregistered u payload S hS]; rfl
    | some c =>
      refine (hreg c hS).2.1 cB ?_
      intro e
      subst e
      exact hB ((hi.reg _ _ hcB).2.symm.trans (hi.reg _ _ hS).2)
  · have hc' : mapGet (u.handle payload S).connectedConns S.String = some c := by
      rw [hq.conns]; exact hc
    have hlt : c < (u.handle payload S).heap.length := by
      rw [hq.len]; exact lt_of_open u c (hi.reg _ c hc).1
    rw [handle_registered _ p2 S c hc', deref_store, if_pos ⟨rfl, hlt⟩, (hreg c hc).1]
    have h1 : (u.deref c).readBuf.length < bufferLen := by simp only [bufferLen]; omega
    have h2 : ((u.deref c).readBuf ++ [payload]).length < bufferLen := by
      simp only [bufferLen, List.length_append, List.length_singleton]; omega
    have h3 : (u.deref c).readBuf.length + 1 < bufferLen := by simp only [bufferLen]; omega
    simp [trySend, h1, h3]

/-- C8 on a run with two connections, `0` for one address and `1` for another: a datagram
from the second address leaves connection `0` as it is. -/
theorem C8_handle_one_queue_witness :
    ((run (NewUDP ⟨"udp", ":9"⟩) [Op.DialUDP ⟨"udp", "10.0.0.1:53"⟩,
        Op.DialUDP ⟨"udp", "10.0.0.2:53"⟩]).handle [1, 2] ⟨"udp", "10.0.0.2:53"⟩).deref 0 =
      (run (NewUDP ⟨"udp", ":9"⟩) [Op.DialUDP ⟨"udp", "10.0.0.1:53"⟩,
        Op.DialUDP ⟨"udp", "10.0.0.2:53"⟩]).deref 0 :=
  (C8_handle_one_queue ⟨"udp", ":9"⟩
    [Op.DialUDP ⟨"udp", "10.0.0.1:53"⟩, Op.DialUDP ⟨"udp", "10.0.0.2:53"⟩]
    [1, 2] ⟨"udp", "10.0.0.2:53"⟩).2.2.2.2.1 "10.0.0.1:53" 0 (by decide) (by decide)

/-- C2: the listener's `WriteTo` never hands a datagram to the physical socket.  Whatever the
depth `fuel` allowed to its self-call, a call either is still recursing, or has returned
`(0, ErrClosed)` or `(0, ErrTimeout)`, with the listener and the log of the socket exactly as
before; on an open listener with a zero write deadline it is still recursing at every depth. -/
theorem C2_WriteTo_only_calls_itself (fuel : Nat) (u : UDP) (clock : Nat → Nat)
    (p : List UInt8) (addr : NetAddr) :
    (u.WriteTo fuel clock p addr = none ∨
      u.WriteTo fuel clock p addr = some ((0, some ErrClosed), u) ∨
      u.WriteTo fuel clock p addr = some ((0, some ErrTimeout), u)) ∧
    ({ u with closedChan := false, writeDeadline := 0 } : UDP).WriteTo fuel clock p addr
      = none := by
  constructor
  · induction fuel generalizing clock with
    | zero => left; rfl
    | succ n ih =>
      by_cases hcl : u.closedChan = true
      · right; left; simp [UDP.WriteTo, hcl]
      · by_cases hdl : u.writeDeadline ≠ 0 ∧ u.writeDeadline < clock 0
        · right; right; simp [UDP.WriteTo, hcl, hdl]
        · have : u.WriteTo (n + 1) clock p addr = u.WriteTo n (fun k => clock (k + 1)) p addr := by
            simp only [UDP.WriteTo, hcl, hdl]
            simp
          rw [this]
          exact ih _
  · induction fuel generalizing clock with
    | zero => rfl
    | succ n ih =>
      simp only [UDP.WriteTo]
      simpa using ih _

/-- C3, as the claim states it, fails: connection `0` is dialled, the reader task queues
`[1, 2, 3]` for it, the listener is closed (`Close` returns nil), and the `Read` that
follows, its `select` taking the data case, returns 3 bytes and a nil error. -/
theorem C3_Read_after_Close_counterexample :
    0 < (run (NewUDP ⟨"udp", ":9"⟩)
      [Op.DialUDP ⟨"udp", "10.0.0.1:53"⟩, Op.handle [1, 2, 3] ⟨"udp", "10.0.0.1:53"⟩]).heap.length ∧
    (run (NewUDP ⟨"udp", ":9"⟩)
      [Op.DialUDP ⟨"udp", "10.0.0.1:53"⟩, Op.handle [1, 2, 3] ⟨"udp", "10.0.0.1:53"⟩]).Close.1
      = none ∧
    (UDPConn.Read (run (NewUDP ⟨"udp", ":9"⟩)
      [Op.DialUDP ⟨"udp", "10.0.0.1:53"⟩, Op.handle [1, 2, 3] ⟨"udp", "10.0.0.1:53"⟩]).Close.2
      0 [0, 0, 0] 0 1).1 = some (3, none, [1, 2, 3]) := by
  decide

/-- C3, amended: in a state reached from `NewUDP` by any calls, after the listener's `Close`
and whatever calls follow it, every connection the listener ever returned is closed; `Write`
on it returns `ErrClosed` and does nothing; `Read` on it never waits, and returns `ErrClosed`
and does nothing when the inbound queue is empty and the read deadline is zero or not yet
reached; otherwise it returns `ErrClosed`, or the payload at the head of the queue, or
`ErrTimeout` if the read deadline is reached. -/
theorem C3_after_Close_connections_closed (l : NetAddr) (ops later : List Op) (c : Nat)
    (b : List UInt8) (now pick : Nat) (res : Nat × Option GoError)
    (hc : c < (run (NewUDP l) ops).heap.length) :
    ((run (run (NewUDP l) ops).Close.2 later).deref c).closedChan = true ∧
    UDPConn.Write (run (run (NewUDP l) ops).Close.2 later) c b now res =
      ((0, some ErrClosed), run (run (NewUDP l) ops).Close.2 later) ∧
    (UDPConn.Read (run (run (NewUDP l) ops).Close.2 later) c b now pick).1 ≠ none ∧
    (((run (run (NewUDP l) ops).Close.2 later).deref c).readBuf = [] →
      (((run (run (NewUDP l) ops).Close.2 later).deref c).readDeadline = 0 ∨
        now < ((run (run (NewUDP l) ops).Close.2 later).deref c).readDeadline) →
      UDPConn.Read (run (run (NewUDP l) ops).Close.2 later) c b now pick =
        (some (0, some ErrClosed, b), run (run (NewUDP l) ops).Close.2 later)) ∧
    (UDPConn.Read (run (run (NewUDP l) ops).Close.2 later) c b now pick =
        (some (0, some ErrClosed, b), run (run (NewUDP l) ops).Close.2 later) ∨
      (∃ buf rest, ((run (run (NewUDP l) ops).Close.2 later).deref c).readBuf = buf :: rest ∧
        UDPConn.Read (run (run (NewUDP l) ops).Close.2 later) c b now pick =
          (some ((copy b buf).1, none, (copy b buf).2),
            (run (run (NewUDP l) ops).Close.2 later).store c
              { (run (run (NewUDP l) ops).Close.2 later).deref c with readBuf := rest })) ∨
      (((run (run (NewUDP l) ops).Close.2 later).deref c).readDeadline ≠ 0 ∧
        ((run (run (NewUDP l) ops).Close.2 later).deref c).readDeadline ≤ now ∧
        UDPConn.Read (run (run (NewUDP l) ops).Close.2 later) c b now pick =
          (some (0, some ErrTimeout, b), run (run (NewUDP l) ops).Close.2 later))) := by
  have hcl0 := Close_shut (run (NewUDP l) ops) (Inv_run l ops)
    (run_shut ops _ (Inv_NewUDP l) (Shut_NewUDP l)) c
  have hlt : c < (run (NewUDP l) ops).Close.2.heap.length :=
    lt_of_lt_of_le hc (Close_evolves _).len
  have hcl := (run_evolves later (run (NewUDP l) ops).Close.2).closed c hlt hcl0
  generalize run (run (NewUDP l) ops).Close.2 later = u at hcl
  have hread := connRead_closed u c b now pick hcl
  refine ⟨hcl, connWrite_closed u c b now res hcl, ?_, ?_, hread⟩
  · rcases hread with h | ⟨_, _, _, h⟩ | ⟨_, _, h⟩ <;> rw [h] <;> simp
  · intro hq hd
    rcases hread with h | ⟨_, _, h, _⟩ | ⟨h0, hle, _⟩
    · exact h
    · rw [hq] at h; exact absurd h (by simp)
    · rcases hd with hd | hd
      · exact absurd hd h0
      · omega

/-- C3 amended, on a run: connection `0` is dialled, the listener is closed, and a `Write` on
the connection returns `ErrClosed`. -/
theorem C3_after_Close_connections_closed_witness :
    UDPConn.Write (run (run (NewUDP ⟨"udp", ":9"⟩) [Op.DialUDP ⟨"udp", "10.0.0.1:53"⟩]).Close.2 [])
        0 [1] 0 (1, none) =
      ((0, some ErrClosed),
        run (run (NewUDP ⟨"udp", ":9"⟩) [Op.DialUDP ⟨"udp", "10.0.0.1:53"⟩]).Close.2 []) :=
  (C3_after_Close_connections_closed ⟨"udp", ":9"⟩ [Op.DialUDP ⟨"udp", "10.0.0.1:53"⟩] [] 0
    [1] 0 0 (1, none) (by decide)).2.1

/-- C4, as the claim states it, fails: a read deadline of `5` is set, the listener is closed,
and `Accept` at the instant `10`, its `select` taking the timer case, returns `ErrTimeout`. -/
theorem C4_Accept_after_Close_counterexample :
    (run (NewUDP ⟨"udp", ":9"⟩) [Op.SetReadDeadline 5, Op.Close]).closedChan = true ∧
    ((run (NewUDP ⟨"udp", ":9"⟩) [Op.SetReadDeadline 5, Op.Close]).Accept 10 1 [] []).1 =
      some (.error ErrTimeout) :=
  ⟨by decide, rfl⟩

/-- C4, amended: on a listener on which `Close` has been called, whatever calls followed,
`DialUDP` and `WriteTo` return `ErrClosed` and change nothing, and `Accept` never waits and
never returns a connection: it returns `ErrClosed`, or `ErrTimeout` when the read deadline is
not zero and has been reached; with a zero or future read deadline it returns `ErrClosed`. -/
theorem C4_closed_listener (u0 : UDP) (later : List Op) (addr : NetAddr) (p : List UInt8)
    (fuel : Nat) (clock : Nat → Nat) (now pick : Nat) (early late : List udpBuf) :
    (run u0.Close.2 later).DialUDP addr = (.error ErrClosed, run u0.Close.2 later) ∧
    (run u0.Close.2 later).WriteTo (fuel + 1) clock p addr =
      some ((0, some ErrClosed), run u0.Close.2 later) ∧
    (((run u0.Close.2 later).Accept now pick early late).1 = some (.error ErrClosed) ∨
      (((run u0.Close.2 later).Accept now pick early late).1 = some (.error ErrTimeout) ∧
        (run u0.Close.2 later).readDeadline ≠ 0 ∧ (run u0.Close.2 later).readDeadline ≤ now)) ∧
    (((run u0.Close.2 later).readDeadline = 0 ∨ now < (run u0.Close.2 later).readDeadline) →
      ((run u0.Close.2 later).Accept now pick early late).1 = some (.error ErrClosed)) := by
  have hcl := run_closedChan later _ (Close_closedChan u0)
  generalize run u0.Close.2 later = u at hcl
  have hacc := Accept_closed u now pick early late hcl
  refine ⟨by simp [UDP.DialUDP, newConnection_eq, hcl], WriteTo_closed fuel u clock p addr hcl,
    hacc, fun hd => ?_⟩
  rcases hacc with h | ⟨_, h0, hle⟩
  · exact h
  · rcases hd with hd | hd
    · exact absurd hd h0
    · omega

/-- C4 amended, on a fresh listener that is closed: `Accept` returns `ErrClosed`. -/
theorem C4_closed_listener_witness :
    ((run (NewUDP ⟨"udp", ":9"⟩).Close.2 []).Accept 7 3 [] []).1 = some (.error ErrClosed) :=
  (C4_closed_listener (NewUDP ⟨"udp", ":9"⟩) [] ⟨"udp", "10.0.0.1:53"⟩ [] 0 (fun k => k) 7 3
    [] []).2.2.2 (Or.inl rfl)

/-! ## addr.go: lemmas and claims -/

theorem stringsContains_append (x y : String) : stringsContains (x ++ y) y = true := by
  simp only [stringsContains, String.data_append, List.any_eq_true]
  refine ⟨y.data, ?_, ?_⟩
  · rw [List.mem_tails]; exact List.suffix_append _ _
  · simp

theorem stringsContains_self (y : String) : stringsContains y y = true := by
  simp only [stringsContains, List.any_eq_true]
  exact ⟨y.data, by rw [List.mem_tails], by simp⟩

theorem missingPort_detected (a : String) :
    stringsContains (AddrError missingPort a).Error missingPort = true := by
  simp only [GoError.Error]
  split
  · exact stringsContains_append _ _
  · exact stringsContains_self _

theorem ResolveIP_ne_panic (env : Env) (hne : ∀ host, env.LookupIP host ≠ .ok [])
    (address : String) : ResolveIP env address ≠ .panic := by
  unfold ResolveIP
  split
  · simp
  · split
    · simp
    · rename_i h; exact absurd h (hne address)
    · simp

theorem srvLoop_eq (env : Env) (hne : ∀ host, env.LookupIP host ≠ .ok []) (network : String)
    (rs : List SRV) :
    srvLoop env network rs =
      (rs.findSome? (fun r =>
        match ResolveIP env r.Target with
        | .ok ip => some (r, ip)
        | _ => none)).map
        (fun x => .ok { Typ := resolveType network, IP := x.2, Port := (x.1.Port.val : Int) }) := by
  induction rs with
  | nil => rfl
  | cons r rs ih =>
    simp only [srvLoop, List.findSome?_cons]
    cases h : ResolveIP env r.Target with
    | ok ip => simp
    | error e => simpa using ih
    | panic => exact absurd h (ResolveIP_ne_panic env hne _)


theorem IsVaildPort_iff (port : Int) : IsVaildPort port = true ↔ 0 ≤ port ∧ port ≤ 65535 := by
  simp [IsVaildPort]

theorem ParsePort_range (env : Env) (network s : String) :
    ParsePort env network s = -1 ∨
      (0 ≤ ParsePort env network s ∧ ParsePort env network s ≤ 65535) := by
  unfold ParsePort
  split
  · left; rfl
  · rename_i port _
    by_cases h : IsVaildPort port = true
    · right; simpa [h] using (IsVaildPort_iff port).mp h
    · left; simp [h]

theorem srvLoop_ok (env : Env) (network : String) (rs : List SRV) (a : Addr)
    (h : srvLoop env network rs = some (.ok a)) :
    0 ≤ a.Port ∧ a.Port ≤ 65535 ∧ a.Typ = resolveType network := by
  induction rs with
  | nil => simp [srvLoop] at h
  | cons r rs ih =>
    simp only [srvLoop] at h
    cases hr : ResolveIP env r.Target with
    | ok ip =>
      rw [hr] at h
      simp only [Option.some.injEq, Outcome.ok.injEq] at h
      subst h
      have := r.Port.isLt
      refine ⟨by simp, ?_, rfl⟩
      show ((r.Port.val : Nat) : Int) ≤ 65535
      omega
    | error e => rw [hr] at h; exact ih h
    | panic => rw [hr] at h; simp at h

/-- C9: for an address without a port, that is one on which `SplitHostPort` fails with
"missing port in address", `ResolveAddr` is the precedence rule of the specification: the
first SRV record in record order whose target resolves, with that record's port; else, with
a default port in `0..65535`, `ResolveIP(address)` paired with the default port, or the
error of `ResolveIP`; else the `AddrError` "missing port in address or no such SRV".  The
lookups of the host environment are taken as given, `LookupIP` returning at least one
address whenever it returns no error. -/
theorem C9_ResolveAddr_without_port (env : Env) (network address service : String)
    (defaultPort : Int) (a : String)
    (hsplit : env.SplitHostPort address = .error (AddrError missingPort a))
    (hne : ∀ host, env.LookupIP host ≠ .ok []) :
    ResolveAddr env network address service defaultPort =
      resolveNoPortRule env network address service defaultPort := by
  unfold ResolveAddr resolveNoPortRule
  simp only [hsplit, missingPort_detected, Bool.not_true, Bool.false_eq_true, if_false,
    IsVaildPort_iff, decide_eq_true_eq]
  have hval : IsVaildPort defaultPort = true ↔ 0 ≤ defaultPort ∧ defaultPort ≤ 65535 :=
    IsVaildPort_iff defaultPort
  cases hsrv : env.LookupSRV service network address with
  | error e =>
    simp only []
    by_cases hv : 0 ≤ defaultPort ∧ defaultPort ≤ 65535
    · simp [hv, missingPortOrNoSRV]
    · simp [hv, missingPortOrNoSRV]
  | ok v =>
    obtain ⟨cname, records⟩ := v
    simp only [srvLoop_eq env hne]
    cases hf : records.findSome? (fun r =>
        match ResolveIP env r.Target with
        | .ok ip => some (r, ip)
        | _ => none) with
    | none =>
      by_cases hv : 0 ≤ defaultPort ∧ defaultPort ≤ 65535
      · simp [hv, missingPortOrNoSRV]
      · simp [hv, missingPortOrNoSRV]
    | some x => simp

/-- C9 in the example environment: with the service `xmpp` the second SRV record is the first
whose target resolves, so the result is `10.0.0.2` with that record's port `5223`. -/
theorem C9_ResolveAddr_without_port_witness :
    ResolveAddr exampleEnv "udp" "example.com" "xmpp" 5353 =
      .ok { Typ := "udp", IP := [10, 0, 0, 2], Port := 5223 } :=
  (C9_ResolveAddr_without_port exampleEnv "udp" "example.com" "xmpp" 5353 "example.com" rfl
    (by intro host; simp only [exampleEnv]; split_ifs <;> simp)).trans (by decide)

/-- C10: every `Addr` the resolver produces has a port in `0..65535` and the type tag of
`resolveType`: this holds for a non-nil result of `ParseAddr` and for a result that
`ResolveAddr` returns with a nil error, whatever the lookups of the host environment return.
`ParsePort` returns `-1` or a value in `0..65535`; `resolveType` is "udp" on udp, udp4 and
udp6, "tcp" on tcp, tcp4 and tcp6, and the empty string on every other token. -/
theorem C10_ports_validated (env : Env) (network s service : String) (defaultPort : Int) :
    (∀ a, ParseAddr env network s = some a →
      0 ≤ a.Port ∧ a.Port ≤ 65535 ∧ a.Typ = resolveType network) ∧
    (∀ a, ResolveAddr env network s service defaultPort = .ok a →
      0 ≤ a.Port ∧ a.Port ≤ 65535 ∧ a.Typ = resolveType network) ∧
    (ParsePort env network s = -1 ∨
      (0 ≤ ParsePort env network s ∧ ParsePort env network s ≤ 65535)) ∧
    (network ∈ ["udp", "udp4", "udp6"] → resolveType network = "udp") ∧
    (network ∈ ["tcp", "tcp4", "tcp6"] → resolveType network = "tcp") ∧
    (network ∉ ["udp", "udp4", "udp6", "tcp", "tcp4", "tcp6"] → resolveType network = "") := by
  refine ⟨fun a h => ?_, fun a h => ?_, ParsePort_range env network s, fun h => ?_, fun h => ?_,
    fun h => ?_⟩
  · unfold ParseAddr at h
    split at h
    · simp at h
    · rename_i host port _
      split at h
      · simp at h
      · simp only [] at h
        split at h
        · simp at h
        · rename_i hp
          simp only [Option.some.injEq] at h
          subst h
          rcases ParsePort_range env network port with h1 | h1
          · exact absurd h1 hp
          · exact ⟨h1.1, h1.2, rfl⟩
  · unfold ResolveAddr at h
    split at h
    · split at h
      · simp at h
      · simp only [] at h
        split at h
        · rename_i r hr
          subst h
          split at hr
          · exact srvLoop_ok env network _ a hr
          · simp at hr
        · split at h
          · rename_i hv
            have hv' := (IsVaildPort_iff defaultPort).mp hv
            split at h
            · simp only [Outcome.ok.injEq] at h
              subst h
              exact ⟨hv'.1, hv'.2, rfl⟩
            · simp at h
            · simp at h
          · simp at h
    · rename_i host port _
      split at h
      · simp at h
      · simp at h
      · simp only [] at h
        split at h
        · simp at h
        · rename_i hp
          simp only [Outcome.ok.injEq] at h
          subst h
          rcases ParsePort_range env network port with h1 | h1
          · exact absurd h1 hp
          · exact ⟨h1.1, h1.2, rfl⟩
  · simp only [List.mem_cons, List.mem_singleton, List.not_mem_nil, or_false] at h
    simp [resolveType, h]
  · simp only [List.mem_cons, List.mem_singleton, List.not_mem_nil, or_false] at h
    rcases h with h | h | h <;> subst h <;> decide
  · simp only [List.mem_cons, List.mem_singleton, List.not_mem_nil, or_false, not_or] at h
    simp [resolveType, h]

/-- C10 in the example environment: `ParseAddr("udp", "10.0.0.1:53")` is an address with
the port `53` and the tag "udp". -/
theorem C10_ports_validated_witness :
    ParseAddr exampleEnv "udp" "10.0.0.1:53" =
      some { Typ := "udp", IP := [10, 0, 0, 1], Port := 53 } ∧
    (0 : Int) ≤ 53 ∧ (53 : Int) ≤ 65535 ∧ "udp" = resolveType "udp" :=
  ⟨by decide, (C10_ports_validated exampleEnv "udp" "10.0.0.1:53" "" 0).1
    { Typ := "udp", IP := [10, 0, 0, 1], Port := 53 } (by decide)⟩

end Netutils
